import Mathlib

/-!
Verification development for the Moxon antenna calculator repository.

The repository's core is a parametric binary-STL mesh generator
(`generateMoxonStl` and its helpers in the STL generator module), a
lower-fidelity preview builder (`buildFrameGeometry`), and an upstream
dimension calculator (`calculateMoxon` in `src/lib/moxon-calculator.ts`).

Shallow embedding conventions:
* JavaScript numbers are modelled as exact rationals (`ℚ`).  The two
  platform primitives that escape rational arithmetic are abstracted:
  `Math.sqrt` is threaded through the geometry pipeline as an explicit
  parameter `sq : ℚ → ℚ` (it only ever feeds triangle normals, never
  vertex positions), and `DataView.setFloat32` is abstracted as a
  parameter `f32 : ℚ → Byte4` producing the four bytes of the IEEE-754
  encoding.  `Math.log` / `Math.pow` inside the dimension calculator are
  likewise parameters.  All theorems quantify over these parameters, so
  they hold for the real platform functions in particular.
* The semantics of the source's `normalize` over genuine real numbers
  (with `Real.sqrt`) is embedded separately as `normalizeR` for the
  division-safety claim.
* `Array.push` accumulation is modelled by builders that take the
  triangle list so far and return it with the new triangles appended,
  mirroring the source's threading of the `triangles` array.
* The `DataView` writes in the encoder are strictly sequential (the
  `offset` cursor only ever increases by the size just written) and
  cover the pre-allocated buffer exactly, so the byte buffer is embedded
  as the corresponding concatenation of byte lists.
-/

namespace Moxon

/-- A 3-vector of rationals, mirroring `type Vec3 = [number, number, number]`. -/
abbrev Vec3 : Type := ℚ × ℚ × ℚ

/-- A 2D footprint point, mirroring `[number, number]`. -/
abbrev Point : Type := ℚ × ℚ

/-- Mirror of the source's `Triangle` record: outward normal plus three vertices. -/
structure Triangle where
  normal : Vec3
  v1 : Vec3
  v2 : Vec3
  v3 : Vec3
deriving DecidableEq

instance : Inhabited Triangle := ⟨⟨(0, 0, 0), (0, 0, 0), (0, 0, 0), (0, 0, 0)⟩⟩

/-- Mirror of `cross(a, b)`. -/
def cross (a b : Vec3) : Vec3 :=
  (a.2.1 * b.2.2 - a.2.2 * b.2.1,
   a.2.2 * b.1 - a.1 * b.2.2,
   a.1 * b.2.1 - a.2.1 * b.1)

/-- Mirror of `sub(a, b)`. -/
def vsub (a b : Vec3) : Vec3 :=
  (a.1 - b.1, a.2.1 - b.2.1, a.2.2 - b.2.2)

/-- Mirror of `normalize(v)`; `sq` abstracts `Math.sqrt`, applied to the sum of
squares exactly as the source computes `len`.  A zero length yields `[0, 0, 1]`. -/
def normalize (sq : ℚ → ℚ) (v : Vec3) : Vec3 :=
  let len := sq (v.1 * v.1 + v.2.1 * v.2.1 + v.2.2 * v.2.2)
  if len = 0 then (0, 0, 1) else (v.1 / len, v.2.1 / len, v.2.2 / len)

/-- Mirror of `computeNormal(v1, v2, v3)`. -/
def computeNormal (sq : ℚ → ℚ) (v1 v2 v3 : Vec3) : Vec3 :=
  normalize sq (cross (vsub v2 v1) (vsub v3 v1))

/-- The four triangles `addPrism` pushes for boundary edge `p1 → p2`:
bottom-cap fan triangle, top-cap fan triangle, and the two side-wall
triangles of the edge's quad (in push order). -/
def prismEdgeTris (sq : ℚ → ℚ) (cx cy : ℚ) (p1 p2 : Point) (z0 z1 : ℚ) :
    List Triangle :=
  let vBL : Vec3 := (p1.1, p1.2, z0)
  let vBR : Vec3 := (p2.1, p2.2, z0)
  let vTR : Vec3 := (p2.1, p2.2, z1)
  let vTL : Vec3 := (p1.1, p1.2, z1)
  let n := computeNormal sq vBL vBR vTR
  [ ⟨(0, 0, -1), (p2.1, p2.2, z0), (p1.1, p1.2, z0), (cx, cy, z0)⟩,
    ⟨(0, 0, 1), (p1.1, p1.2, z1), (p2.1, p2.2, z1), (cx, cy, z1)⟩,
    ⟨n, vBL, vBR, vTR⟩,
    ⟨n, vBL, vTR, vTL⟩ ]

/-- The triangles emitted by the loop body of `addPrism`: for each index
`i < n` it processes edge `points[i] → points[(i+1) % n]`, with the cap
fan centred on the footprint centroid. -/
def prismTris (sq : ℚ → ℚ) (points : List Point) (z0 z1 : ℚ) : List Triangle :=
  let n := points.length
  let cx := (points.map Prod.fst).sum / (n : ℚ)
  let cy := (points.map Prod.snd).sum / (n : ℚ)
  (List.range n).flatMap fun i =>
    prismEdgeTris sq cx cy (points.getD i (0, 0)) (points.getD ((i + 1) % n) (0, 0)) z0 z1

/-- Mirror of `addPrism(triangles, points, z0, z1)`: a degenerate call with
fewer than 3 points appends nothing, otherwise the extrusion triangles are
pushed onto the accumulated list. -/
def addPrism (sq : ℚ → ℚ) (tris : List Triangle) (points : List Point)
    (z0 z1 : ℚ) : List Triangle :=
  if points.length < 3 then tris else tris ++ prismTris sq points z0 z1

/-- The 4-point rectangle boundary `addBox` feeds to `addPrism`. -/
def boxPoints (x0 y0 x1 y1 : ℚ) : List Point :=
  [(x0, y0), (x1, y0), (x1, y1), (x0, y1)]

/-- Mirror of `addBox(triangles, x0, y0, z0, x1, y1, z1)`. -/
def addBox (sq : ℚ → ℚ) (tris : List Triangle) (x0 y0 z0 x1 y1 z1 : ℚ) :
    List Triangle :=
  addPrism sq tris (boxPoints x0 y0 x1 y1) z0 z1

/-- The octagon boundary computed inside `addChamferedCorner`, with the
source's clamp `c = Math.min(chamfer, half - 0.1)`. -/
def chamferPoints (cx cy size chamfer : ℚ) : List Point :=
  let half := size / 2
  let c := min chamfer (half - 1/10)
  let x0 := cx - half
  let x1 := cx + half
  let y0 := cy - half
  let y1 := cy + half
  [(x0 + c, y0), (x1 - c, y0), (x1, y0 + c), (x1, y1 - c),
   (x1 - c, y1), (x0 + c, y1), (x0, y1 - c), (x0, y0 + c)]

/-- Mirror of `addChamferedCorner(triangles, cx, cy, size, z0, z1, chamfer)`. -/
def addChamferedCorner (sq : ℚ → ℚ) (tris : List Triangle)
    (cx cy size z0 z1 chamfer : ℚ) : List Triangle :=
  addPrism sq tris (chamferPoints cx cy size chamfer) z0 z1

/-- An axis-aligned extent `(x0, y0, z0) – (x1, y1, z1)`, the argument tuple
of one `addBox` call. -/
structure Extent where
  x0 : ℚ
  y0 : ℚ
  z0 : ℚ
  x1 : ℚ
  y1 : ℚ
  z1 : ℚ
deriving DecidableEq

/-- Push one box extent, mirroring an `addBox` call. -/
def addBoxExtent (sq : ℚ → ℚ) (tris : List Triangle) (ext : Extent) :
    List Triangle :=
  addBox sq tris ext.x0 ext.y0 ext.z0 ext.x1 ext.y1 ext.z1

/-- Mirror of the source's `PrintConfig` record (all lengths in mm). -/
structure PrintConfig where
  wireDiameterMm : ℚ
  tolerance : ℚ
  wallThickness : ℚ
  floorThickness : ℚ
  channelHeight : ℚ
  boomWidth : ℚ
  mountingTailLength : ℚ
  mountingHoleDiameter : ℚ
  cornerChamfer : ℚ
deriving DecidableEq

/-- Mirror of `DEFAULT_PRINT_CONFIG`. -/
def DEFAULT_PRINT_CONFIG : PrintConfig :=
  { wireDiameterMm := 1.38
    tolerance := 0.4
    wallThickness := 2
    floorThickness := 2
    channelHeight := 3.5
    boomWidth := 10
    mountingTailLength := 35
    mountingHoleDiameter := 4
    cornerChamfer := 1.5 }

/-- Mirror of `ConvertedDimensions` from `src/lib/moxon-calculator.ts`. -/
structure ConvertedDimensions where
  a : ℚ
  b : ℚ
  c : ℚ
  d : ℚ
  e : ℚ
  drivenCutLength : ℚ
  reflectorCutLength : ℚ
  wavelength : ℚ
  wireDiameter : ℚ
deriving DecidableEq

/-- The extents of the three boxes `addChannelX(triangles, xStart, xEnd, cy,
cfg)` pushes: floor, left wall, right wall, in source order. -/
def channelXExtents (xStart xEnd cy : ℚ) (cfg : PrintConfig) : List Extent :=
  let slotWidth := cfg.wireDiameterMm + cfg.tolerance
  let outerW := slotWidth + 2 * cfg.wallThickness
  let totalH := cfg.floorThickness + cfg.channelHeight
  let halfO := outerW / 2
  [ ⟨xStart, cy - halfO, 0, xEnd, cy + halfO, cfg.floorThickness⟩,
    ⟨xStart, cy - halfO, cfg.floorThickness, xEnd, cy - halfO + cfg.wallThickness, totalH⟩,
    ⟨xStart, cy + halfO - cfg.wallThickness, cfg.floorThickness, xEnd, cy + halfO, totalH⟩ ]

/-- Mirror of `addChannelX`: the three `addBox` calls in sequence. -/
def addChannelX (sq : ℚ → ℚ) (tris : List Triangle) (xStart xEnd cy : ℚ)
    (cfg : PrintConfig) : List Triangle :=
  (channelXExtents xStart xEnd cy cfg).foldl (addBoxExtent sq) tris

/-- The extents of the three boxes of `addChannelY(triangles, yStart, yEnd,
cx, cfg)`, with the source's min/max ordering of the y-interval. -/
def channelYExtents (yStart yEnd cx : ℚ) (cfg : PrintConfig) : List Extent :=
  let slotWidth := cfg.wireDiameterMm + cfg.tolerance
  let outerW := slotWidth + 2 * cfg.wallThickness
  let totalH := cfg.floorThickness + cfg.channelHeight
  let halfO := outerW / 2
  let yMin := min yStart yEnd
  let yMax := max yStart yEnd
  [ ⟨cx - halfO, yMin, 0, cx + halfO, yMax, cfg.floorThickness⟩,
    ⟨cx - halfO, yMin, cfg.floorThickness, cx - halfO + cfg.wallThickness, yMax, totalH⟩,
    ⟨cx + halfO - cfg.wallThickness, yMin, cfg.floorThickness, cx + halfO, yMax, totalH⟩ ]

/-- Mirror of `addChannelY`: the three `addBox` calls in sequence. -/
def addChannelY (sq : ℚ → ℚ) (tris : List Triangle) (yStart yEnd cx : ℚ)
    (cfg : PrintConfig) : List Triangle :=
  (channelYExtents yStart yEnd cx cfg).foldl (addBoxExtent sq) tris

/-- Mirror of the `direction` string union of `addEndCap`. -/
inductive CapDirection
  | positive
  | negative
deriving DecidableEq

/-- The single box extent of `addEndCap(triangles, cx, yEdge, cfg,
direction)`, with the direction-aware `y0`/`y1` choice of the source. -/
def endCapExtents (cx yEdge : ℚ) (cfg : PrintConfig) (direction : CapDirection) :
    List Extent :=
  let outerW := cfg.wireDiameterMm + cfg.tolerance + 2 * cfg.wallThickness
  let halfO := outerW / 2
  let totalH := cfg.floorThickness + cfg.channelHeight
  let y0 := match direction with
    | CapDirection.positive => yEdge
    | CapDirection.negative => yEdge - cfg.wallThickness
  let y1 := match direction with
    | CapDirection.positive => yEdge + cfg.wallThickness
    | CapDirection.negative => yEdge
  [ ⟨cx - halfO, y0, 0, cx + halfO, y1, totalH⟩ ]

/-- Mirror of `addEndCap`: its one `addBox` call. -/
def addEndCap (sq : ℚ → ℚ) (tris : List Triangle) (cx yEdge : ℚ)
    (cfg : PrintConfig) (direction : CapDirection) : List Triangle :=
  (endCapExtents cx yEdge cfg direction).foldl (addBoxExtent sq) tris

/-- The single box extent of `addSideBridge(triangles, yStart, yEnd, cx,
cfg)`: a flat box of width `2·wallThickness` over the min/max-ordered
y-interval at floor thickness. -/
def sideBridgeExtents (yStart yEnd cx : ℚ) (cfg : PrintConfig) : List Extent :=
  let bridgeWidth := cfg.wallThickness * 2
  let halfWidth := bridgeWidth / 2
  let yMin := min yStart yEnd
  let yMax := max yStart yEnd
  [ ⟨cx - halfWidth, yMin, 0, cx + halfWidth, yMax, cfg.floorThickness⟩ ]

/-- Mirror of `addSideBridge`: its one `addBox` call. -/
def addSideBridge (sq : ℚ → ℚ) (tris : List Triangle) (yStart yEnd cx : ℚ)
    (cfg : PrintConfig) : List Triangle :=
  (sideBridgeExtents yStart yEnd cx cfg).foldl (addBoxExtent sq) tris

/-- The layout quantity `outerWidth` shared by `generateMoxonStl` and
`buildFrameGeometry`. -/
def outerWidth (cfg : PrintConfig) : ℚ :=
  cfg.wireDiameterMm + cfg.tolerance + 2 * cfg.wallThickness

/-- The layout quantity `halfOuter = outerWidth / 2`. -/
def halfOuter (cfg : PrintConfig) : ℚ := outerWidth cfg / 2

/-- The layout quantity `totalHeight = floorThickness + channelHeight`. -/
def totalHeight (cfg : PrintConfig) : ℚ := cfg.floorThickness + cfg.channelHeight

/-- The layout quantity `driverY = -e / 2`. -/
def driverY (dims : ConvertedDimensions) : ℚ := -dims.e / 2

/-- The layout quantity `reflectorY = e / 2`. -/
def reflectorY (dims : ConvertedDimensions) : ℚ := dims.e / 2

/-- The layout quantity `driverTailEnd = driverY + b`. -/
def driverTailEnd (dims : ConvertedDimensions) : ℚ := driverY dims + dims.b

/-- The layout quantity `reflectorTailEnd = reflectorY - d`. -/
def reflectorTailEnd (dims : ConvertedDimensions) : ℚ := reflectorY dims - dims.d

/-- The layout quantity `boomHeight = floorThickness + 1.5`. -/
def boomHeight (cfg : PrintConfig) : ℚ := cfg.floorThickness + 1.5

/-- The layout quantity `boomStart = driverY - halfOuter`. -/
def boomStart (dims : ConvertedDimensions) (cfg : PrintConfig) : ℚ :=
  driverY dims - halfOuter cfg

/-- The layout quantity `boomBodyEnd = reflectorY + halfOuter`. -/
def boomBodyEnd (dims : ConvertedDimensions) (cfg : PrintConfig) : ℚ :=
  reflectorY dims + halfOuter cfg

/-- The layout quantity `tailStart = boomBodyEnd`. -/
def tailStart (dims : ConvertedDimensions) (cfg : PrintConfig) : ℚ :=
  boomBodyEnd dims cfg

/-- The layout quantity `tailEnd = tailStart + mountingTailLength`. -/
def tailEnd (dims : ConvertedDimensions) (cfg : PrintConfig) : ℚ :=
  tailStart dims cfg + cfg.mountingTailLength

/-- The extents of the `addBox` calls in the mounting-tail block of
`generateMoxonStl`: with `mountingHoleDiameter > 0` the four boxes
(before / left of / right of / after the square hole), otherwise the one
solid tail box. -/
def mountingTailExtents (dims : ConvertedDimensions) (cfg : PrintConfig) :
    List Extent :=
  let halfBoom := cfg.boomWidth / 2
  let tS := tailStart dims cfg
  let tE := tailEnd dims cfg
  let bh := boomHeight cfg
  if 0 < cfg.mountingHoleDiameter then
    let holeMidY := (tS + tE) / 2
    let hHalf := cfg.mountingHoleDiameter / 2
    [ ⟨-halfBoom, tS, 0, halfBoom, holeMidY - hHalf, bh⟩,
      ⟨-halfBoom, holeMidY - hHalf, 0,
        -halfBoom + (cfg.boomWidth - cfg.mountingHoleDiameter) / 2, holeMidY + hHalf, bh⟩,
      ⟨halfBoom - (cfg.boomWidth - cfg.mountingHoleDiameter) / 2, holeMidY - hHalf, 0,
        halfBoom, holeMidY + hHalf, bh⟩,
      ⟨-halfBoom, holeMidY + hHalf, 0, halfBoom, tE, bh⟩ ]
  else
    [ ⟨-halfBoom, tS, 0, halfBoom, tE, bh⟩ ]

/-- The mounting-tail block of `generateMoxonStl` (the `if
cfg.mountingHoleDiameter > 0` branch at the end of the composer), as the
sequence of its `addBox` calls. -/
def addMountingTail (sq : ℚ → ℚ) (tris : List Triangle)
    (dims : ConvertedDimensions) (cfg : PrintConfig) : List Triangle :=
  (mountingTailExtents dims cfg).foldl (addBoxExtent sq) tris

/-- The triangle-list pass of `generateMoxonStl(dims, cfg)`: every feature
builder call in source order, threading the accumulated triangle array. -/
def moxonTriangles (sq : ℚ → ℚ) (dims : ConvertedDimensions)
    (cfg : PrintConfig) : List Triangle :=
  let halfA := dims.a / 2
  -- Driver element
  let t1 := addChannelX sq [] (-halfA) halfA (driverY dims) cfg
  let t2 := addChannelY sq t1 (driverY dims) (driverTailEnd dims) (-halfA) cfg
  let t3 := addChannelY sq t2 (driverY dims) (driverTailEnd dims) halfA cfg
  let t4 := addEndCap sq t3 (-halfA) (driverTailEnd dims) cfg CapDirection.positive
  let t5 := addEndCap sq t4 halfA (driverTailEnd dims) cfg CapDirection.positive
  -- Reflector element
  let t6 := addChannelX sq t5 (-halfA) halfA (reflectorY dims) cfg
  let t7 := addChannelY sq t6 (reflectorTailEnd dims) (reflectorY dims) (-halfA) cfg
  let t8 := addChannelY sq t7 (reflectorTailEnd dims) (reflectorY dims) halfA cfg
  let t9 := addEndCap sq t8 (-halfA) (reflectorTailEnd dims) cfg CapDirection.negative
  let t10 := addEndCap sq t9 halfA (reflectorTailEnd dims) cfg CapDirection.negative
  -- Side bridges (close gap C)
  let t11 := addSideBridge sq t10 (driverTailEnd dims + cfg.wallThickness)
      (reflectorTailEnd dims - cfg.wallThickness) (-halfA) cfg
  let t12 := addSideBridge sq t11 (driverTailEnd dims + cfg.wallThickness)
      (reflectorTailEnd dims - cfg.wallThickness) halfA cfg
  -- Chamfered corner blocks
  let t13 := addChamferedCorner sq t12 (-halfA) (driverY dims) (outerWidth cfg) 0
      (totalHeight cfg) cfg.cornerChamfer
  let t14 := addChamferedCorner sq t13 halfA (driverY dims) (outerWidth cfg) 0
      (totalHeight cfg) cfg.cornerChamfer
  let t15 := addChamferedCorner sq t14 (-halfA) (reflectorY dims) (outerWidth cfg) 0
      (totalHeight cfg) cfg.cornerChamfer
  let t16 := addChamferedCorner sq t15 halfA (reflectorY dims) (outerWidth cfg) 0
      (totalHeight cfg) cfg.cornerChamfer
  -- Central boom
  let halfBoom := cfg.boomWidth / 2
  let t17 := addBox sq t16 (-halfBoom) (boomStart dims cfg) 0 halfBoom
      (boomBodyEnd dims cfg) (boomHeight cfg)
  -- Mounting tail with zip-tie hole
  addMountingTail sq t17 dims cfg

-- ── Binary STL encoder ──

/-- The four bytes of one 32-bit little-endian write. -/
abbrev Byte4 : Type := ℕ × ℕ × ℕ × ℕ

/-- Flatten a 4-byte group into the byte stream. -/
def byte4List (b : Byte4) : List ℕ := [b.1, b.2.1, b.2.2.1, b.2.2.2]

/-- Little-endian bytes of `setUint32(·, n, true)`. -/
def u32le (n : ℕ) : List ℕ :=
  [n % 256, n / 256 % 256, n / 256 ^ 2 % 256, n / 256 ^ 3 % 256]

/-- The UTF-16 code units of the source's header string (all ASCII), as
`charCodeAt` reads them. -/
def headerCodes : List ℕ :=
  "Moxon Antenna Frame - Generated by Moxon Calculator".data.map Char.toNat

/-- The 80 header bytes: the loop writes `charCodeAt(i)` below the header
length and `0` (the zero padding) up to byte 79. -/
def headerBytes : List ℕ :=
  (List.range 80).map fun i => headerCodes.getD i 0

/-- The 50-byte record of one triangle: twelve 32-bit float writes (normal,
then the three vertices) followed by the 2-byte `setUint16(·, 0, true)`
trailing field. -/
def vecBytes (f32 : ℚ → Byte4) (v : Vec3) : List ℕ :=
  byte4List (f32 v.1) ++ byte4List (f32 v.2.1) ++ byte4List (f32 v.2.2)

/-- The full 50-byte triangle record of the encoding loop. -/
def triRecord (f32 : ℚ → Byte4) (t : Triangle) : List ℕ :=
  vecBytes f32 t.normal ++ vecBytes f32 t.v1 ++ vecBytes f32 t.v2 ++
    vecBytes f32 t.v3 ++ [0, 0]

/-- The encoding pass of `generateMoxonStl`: 80 header bytes, the
little-endian `uint32` triangle count, then the 50-byte records.  The
`DataView` writes are sequential and fill the `84 + 50·N`-byte buffer
exactly, so the buffer is their concatenation. -/
def stlBytes (f32 : ℚ → Byte4) (tris : List Triangle) : List ℕ :=
  headerBytes ++ (u32le tris.length ++ tris.flatMap (triRecord f32))

/-- Full `generateMoxonStl(dims, cfg)`: compose the frame and encode it. -/
def generateMoxonStl (sq : ℚ → ℚ) (f32 : ℚ → Byte4)
    (dims : ConvertedDimensions) (cfg : PrintConfig) : List ℕ :=
  stlBytes f32 (moxonTriangles sq dims cfg)

-- ── Preview geometry builder ──

/-- Mirror of the `type` union of `FrameGeometry` boxes. -/
inductive FeatureType
  | driver
  | reflector
  | boom
  | corner
  | bridge
  | endcap
deriving DecidableEq

/-- Mirror of one `FrameGeometry` box descriptor. -/
structure PreviewBox where
  pos : Vec3
  size : Vec3
  ftype : FeatureType
deriving DecidableEq

/-- Mirror of the local `add` closure of `buildFrameGeometry`: remap an
axis-aligned extent to the Three.js convention `pos = [x, z, -y]` (taken at
the extent's centre) with componentwise nonnegative sizes. -/
def previewAdd (x0 y0 z0 x1 y1 z1 : ℚ) (t : FeatureType) : PreviewBox :=
  { pos := ((x0 + x1) / 2, (z0 + z1) / 2, -((y0 + y1) / 2))
    size := (|x1 - x0|, |z1 - z0|, |y1 - y0|)
    ftype := t }

/-- Mirror of `buildFrameGeometry(dims, cfg)`: the 30 box descriptors in
source push order, with the source's local layout arithmetic written
inline exactly as the function computes it. -/
def buildFrameGeometry (dims : ConvertedDimensions) (cfg : PrintConfig) :
    List PreviewBox :=
  let halfA := dims.a / 2
  let dY := -dims.e / 2
  let rY := dims.e / 2
  let slotWidth := cfg.wireDiameterMm + cfg.tolerance
  let outerW := slotWidth + 2 * cfg.wallThickness
  let halfO := outerW / 2
  let totalH := cfg.floorThickness + cfg.channelHeight
  let halfBoom := cfg.boomWidth / 2
  let bh := cfg.floorThickness + 1.5
  let bridgeWidth := cfg.wallThickness * 2
  let dTailEnd := dY + dims.b
  let rTailEnd := rY - dims.d
  let halfBridge := bridgeWidth / 2
  let bStart := dY - halfO
  let bBodyEnd := rY + halfO
  let tS := bBodyEnd
  let tE := tS + cfg.mountingTailLength
  [ -- Driver: horizontal bar (floor + 2 walls)
    previewAdd (-halfA) (dY - halfO) 0 halfA (dY + halfO) cfg.floorThickness .driver,
    previewAdd (-halfA) (dY - halfO) cfg.floorThickness halfA
      (dY - halfO + cfg.wallThickness) totalH .driver,
    previewAdd (-halfA) (dY + halfO - cfg.wallThickness) cfg.floorThickness halfA
      (dY + halfO) totalH .driver,
    -- Driver tails (xc = -halfA, then halfA)
    previewAdd (-halfA - halfO) dY 0 (-halfA + halfO) dTailEnd cfg.floorThickness .driver,
    previewAdd (-halfA - halfO) dY cfg.floorThickness
      (-halfA - halfO + cfg.wallThickness) dTailEnd totalH .driver,
    previewAdd (-halfA + halfO - cfg.wallThickness) dY cfg.floorThickness
      (-halfA + halfO) dTailEnd totalH .driver,
    previewAdd (halfA - halfO) dY 0 (halfA + halfO) dTailEnd cfg.floorThickness .driver,
    previewAdd (halfA - halfO) dY cfg.floorThickness
      (halfA - halfO + cfg.wallThickness) dTailEnd totalH .driver,
    previewAdd (halfA + halfO - cfg.wallThickness) dY cfg.floorThickness
      (halfA + halfO) dTailEnd totalH .driver,
    -- Driver end caps
    previewAdd (-halfA - halfO) dTailEnd 0 (-halfA + halfO)
      (dTailEnd + cfg.wallThickness) totalH .endcap,
    previewAdd (halfA - halfO) dTailEnd 0 (halfA + halfO)
      (dTailEnd + cfg.wallThickness) totalH .endcap,
    -- Reflector: horizontal bar
    previewAdd (-halfA) (rY - halfO) 0 halfA (rY + halfO) cfg.floorThickness .reflector,
    previewAdd (-halfA) (rY - halfO) cfg.floorThickness halfA
      (rY - halfO + cfg.wallThickness) totalH .reflector,
    previewAdd (-halfA) (rY + halfO - cfg.wallThickness) cfg.floorThickness halfA
      (rY + halfO) totalH .reflector,
    -- Reflector tails
    previewAdd (-halfA - halfO) rTailEnd 0 (-halfA + halfO) rY cfg.floorThickness .reflector,
    previewAdd (-halfA - halfO) rTailEnd cfg.floorThickness
      (-halfA - halfO + cfg.wallThickness) rY totalH .reflector,
    previewAdd (-halfA + halfO - cfg.wallThickness) rTailEnd cfg.floorThickness
      (-halfA + halfO) rY totalH .reflector,
    previewAdd (halfA - halfO) rTailEnd 0 (halfA + halfO) rY cfg.floorThickness .reflector,
    previewAdd (halfA - halfO) rTailEnd cfg.floorThickness
      (halfA - halfO + cfg.wallThickness) rY totalH .reflector,
    previewAdd (halfA + halfO - cfg.wallThickness) rTailEnd cfg.floorThickness
      (halfA + halfO) rY totalH .reflector,
    -- Reflector end caps
    previewAdd (-halfA - halfO) (rTailEnd - cfg.wallThickness) 0 (-halfA + halfO)
      rTailEnd totalH .endcap,
    previewAdd (halfA - halfO) (rTailEnd - cfg.wallThickness) 0 (halfA + halfO)
      rTailEnd totalH .endcap,
    -- Side bridges
    previewAdd (-halfA - halfBridge) (dTailEnd + cfg.wallThickness) 0
      (-halfA + halfBridge) (rTailEnd - cfg.wallThickness) cfg.floorThickness .bridge,
    previewAdd (halfA - halfBridge) (dTailEnd + cfg.wallThickness) 0
      (halfA + halfBridge) (rTailEnd - cfg.wallThickness) cfg.floorThickness .bridge,
    -- Corner blocks (simplified to boxes for preview)
    previewAdd (-halfA - halfO) (dY - halfO) 0 (-halfA + halfO) (dY + halfO) totalH .corner,
    previewAdd (-halfA - halfO) (rY - halfO) 0 (-halfA + halfO) (rY + halfO) totalH .corner,
    previewAdd (halfA - halfO) (dY - halfO) 0 (halfA + halfO) (dY + halfO) totalH .corner,
    previewAdd (halfA - halfO) (rY - halfO) 0 (halfA + halfO) (rY + halfO) totalH .corner,
    -- Boom body
    previewAdd (-halfBoom) bStart 0 halfBoom bBodyEnd bh .boom,
    -- Mounting tail
    previewAdd (-halfBoom) tS 0 halfBoom tE bh .boom ]

-- ── Dimension calculator ──

/-- Mirror of `DiameterUnit` (`"in" | "mm" | "awg" | "wl"`). -/
inductive DiameterUnit
  | inch
  | mm
  | awg
  | wl
deriving DecidableEq

/-- Mirror of `MoxonDimensions` (warning text as an optional string). -/
structure MoxonDimensions where
  a : ℚ
  b : ℚ
  c : ℚ
  d : ℚ
  e : ℚ
  drivenCutLength : ℚ
  reflectorCutLength : ℚ
  wavelength : ℚ
  wireDiameterWl : ℚ
  warning : Option String
deriving DecidableEq

/-- Mirror of `MoxonResults`, with the `converted` map spelled out as its
five entries (`wl`, `ft`, `in`, `m`, `mm`). -/
structure MoxonResults where
  dimensions : MoxonDimensions
  isInsulated : Bool
  velocityFactor : ℚ
  convertedWl : ConvertedDimensions
  convertedFt : ConvertedDimensions
  convertedIn : ConvertedDimensions
  convertedM : ConvertedDimensions
  convertedMm : ConvertedDimensions
deriving DecidableEq

/-- Mirror of `convertToWavelengths(diameter, unit, frequencyMHz)`;
`pow92` abstracts `Math.pow(92, ·)` in the AWG branch. -/
def convertToWavelengths (pow92 : ℚ → ℚ) (diameter : ℚ) (unit : DiameterUnit)
    (frequencyMHz : ℚ) : ℚ :=
  match unit with
  | DiameterUnit.wl => diameter
  | DiameterUnit.inch => diameter / (11802.71 / frequencyMHz)
  | DiameterUnit.mm => diameter / (299792.5 / frequencyMHz)
  | DiameterUnit.awg =>
      let diameterInches := 0.005 * pow92 ((36 - diameter) / 39)
      diameterInches / (11802.71 / frequencyMHz)

/-- Mirror of the local `convert(factor)` closure of `calculateMoxon`. -/
def convertDims (a b c d e drivenCut reflectorCut dw factor : ℚ) :
    ConvertedDimensions :=
  { a := a * factor
    b := b * factor
    c := c * factor
    d := d * factor
    e := e * factor
    drivenCutLength := drivenCut * factor
    reflectorCutLength := reflectorCut * factor
    wavelength := factor
    wireDiameter := dw * factor }

/-- Mirror of `calculateMoxon(frequencyMHz, wireDiameter, diameterUnit,
isInsulated)`; `mlog` abstracts `Math.log` and `pow92` abstracts
`Math.pow(92, ·)`.  Returns `none` exactly on the source's safety guard. -/
def calculateMoxon (mlog pow92 : ℚ → ℚ) (frequencyMHz wireDiameter : ℚ)
    (diameterUnit : DiameterUnit) (isInsulated : Bool) : Option MoxonResults :=
  if frequencyMHz ≤ 0 ∨ wireDiameter ≤ 0 then none
  else
    let dw := convertToWavelengths pow92 wireDiameter diameterUnit frequencyMHz
    let log10Diameter := 0.4342945 * mlog dw
    let warning : Option String :=
      if log10Diameter < -6 then
        some "Wire diameter very small for this frequency — results may be unreliable."
      else if -2 < log10Diameter then
        some "Wire diameter very large for this frequency — results may be unreliable."
      else none
    let a0 := -0.0008571428571 * log10Diameter * log10Diameter +
        -0.009571428571 * log10Diameter + 0.3398571429
    let b0 := -0.002142857143 * log10Diameter * log10Diameter +
        -0.02035714286 * log10Diameter + 0.008285714286
    let c0 := 0.001809523381 * log10Diameter * log10Diameter +
        0.01780952381 * log10Diameter + 0.05164285714
    let d0 := 0.001 * log10Diameter + 0.07178571429
    let velocityFactor : ℚ := if isInsulated then 0.97 else 1
    let a := a0 * velocityFactor
    let b := b0 * velocityFactor
    let c := c0 * velocityFactor
    let d := d0 * velocityFactor
    let e := b + c + d
    let drivenCutLength := a + 2 * b
    let reflectorCutLength := a + 2 * d
    let wlToFt := 983.5592 / frequencyMHz
    let wlToIn := 11802.71 / frequencyMHz
    let wlToM := 299.7925 / frequencyMHz
    let wlToMm := 299792.5 / frequencyMHz
    some
      { dimensions :=
          { a := a, b := b, c := c, d := d, e := e
            drivenCutLength := drivenCutLength
            reflectorCutLength := reflectorCutLength
            wavelength := 1
            wireDiameterWl := dw
            warning := warning }
        isInsulated := isInsulated
        velocityFactor := velocityFactor
        convertedWl := convertDims a b c d e drivenCutLength reflectorCutLength dw 1
        convertedFt := convertDims a b c d e drivenCutLength reflectorCutLength dw wlToFt
        convertedIn := convertDims a b c d e drivenCutLength reflectorCutLength dw wlToIn
        convertedM := convertDims a b c d e drivenCutLength reflectorCutLength dw wlToM
        convertedMm := convertDims a b c d e drivenCutLength reflectorCutLength dw wlToMm }

-- ── Real-number semantics of normalize, for the division-safety claim ──

/-- A 3-vector of reals. -/
abbrev Vec3R : Type := ℝ × ℝ × ℝ

/-- Mirror of `sub` over the reals. -/
noncomputable def vsubR (a b : Vec3R) : Vec3R :=
  (a.1 - b.1, a.2.1 - b.2.1, a.2.2 - b.2.2)

/-- Mirror of `cross` over the reals. -/
noncomputable def crossR (a b : Vec3R) : Vec3R :=
  (a.2.1 * b.2.2 - a.2.2 * b.2.1,
   a.2.2 * b.1 - a.1 * b.2.2,
   a.1 * b.2.1 - a.2.1 * b.1)

/-- The length `Math.sqrt(x² + y² + z²)` computed by `normalize`. -/
noncomputable def vlenR (v : Vec3R) : ℝ :=
  Real.sqrt (v.1 * v.1 + v.2.1 * v.2.1 + v.2.2 * v.2.2)

open Classical in
/-- Mirror of `normalize(v)` with the platform square root interpreted as
the exact real square root: a zero length returns `[0, 0, 1]`, otherwise
each component is divided by the length. -/
noncomputable def normalizeR (v : Vec3R) : Vec3R :=
  let len := vlenR v
  if len = 0 then (0, 0, 1) else (v.1 / len, v.2.1 / len, v.2.2 / len)

/-- Mirror of `computeNormal(v1, v2, v3)` over the reals. -/
noncomputable def computeNormalR (v1 v2 v3 : Vec3R) : Vec3R :=
  normalizeR (crossR (vsubR v2 v1) (vsubR v3 v1))

-- ── Scaling actions (for the homogeneity claim) ──

/-- Multiply every length field of a `ConvertedDimensions` record by `k`. -/
def ConvertedDimensions.scale (k : ℚ) (d : ConvertedDimensions) :
    ConvertedDimensions :=
  { a := k * d.a, b := k * d.b, c := k * d.c, d := k * d.d, e := k * d.e
    drivenCutLength := k * d.drivenCutLength
    reflectorCutLength := k * d.reflectorCutLength
    wavelength := k * d.wavelength
    wireDiameter := k * d.wireDiameter }

/-- Multiply every length field of a `PrintConfig` by `k`. -/
def PrintConfig.scale (k : ℚ) (c : PrintConfig) : PrintConfig :=
  { wireDiameterMm := k * c.wireDiameterMm
    tolerance := k * c.tolerance
    wallThickness := k * c.wallThickness
    floorThickness := k * c.floorThickness
    channelHeight := k * c.channelHeight
    boomWidth := k * c.boomWidth
    mountingTailLength := k * c.mountingTailLength
    mountingHoleDiameter := k * c.mountingHoleDiameter
    cornerChamfer := k * c.cornerChamfer }

/-- Scale a footprint point. -/
def pmul (k : ℚ) (p : Point) : Point := (k * p.1, k * p.2)

/-- Scale a 3-vector. -/
def vmul (k : ℚ) (v : Vec3) : Vec3 := (k * v.1, k * v.2.1, k * v.2.2)

/-- The three vertices of a triangle (the claim under study is about vertex
coordinates; normals are quotients and are not claimed to scale). -/
def vertsOf (t : Triangle) : Vec3 × Vec3 × Vec3 := (t.v1, t.v2, t.v3)

/-- Scale all three vertices of a vertex triple. -/
def vertsMul (k : ℚ) (p : Vec3 × Vec3 × Vec3) : Vec3 × Vec3 × Vec3 :=
  (vmul k p.1, vmul k p.2.1, vmul k p.2.2)

-- ── Append-normalisation of the builders ──

theorem addPrism_append (sq : ℚ → ℚ) (tris : List Triangle) (points : List Point)
    (z0 z1 : ℚ) : addPrism sq tris points z0 z1 = tris ++ addPrism sq [] points z0 z1 := by
  unfold addPrism
  split <;> simp

theorem addBox_append (sq : ℚ → ℚ) (tris : List Triangle) (x0 y0 z0 x1 y1 z1 : ℚ) :
    addBox sq tris x0 y0 z0 x1 y1 z1 = tris ++ addBox sq [] x0 y0 z0 x1 y1 z1 := by
  unfold addBox
  exact addPrism_append ..

theorem addChamferedCorner_append (sq : ℚ → ℚ) (tris : List Triangle)
    (cx cy size z0 z1 chamfer : ℚ) :
    addChamferedCorner sq tris cx cy size z0 z1 chamfer =
      tris ++ addChamferedCorner sq [] cx cy size z0 z1 chamfer := by
  unfold addChamferedCorner
  exact addPrism_append ..

theorem foldl_addBoxExtent_append (sq : ℚ → ℚ) (exts : List Extent) :
    ∀ tris : List Triangle,
      exts.foldl (addBoxExtent sq) tris = tris ++ exts.foldl (addBoxExtent sq) [] := by
  induction exts with
  | nil => simp
  | cons e rest ih =>
      intro tris
      rw [List.foldl_cons, List.foldl_cons, ih, ih (addBoxExtent sq [] e)]
      unfold addBoxExtent
      rw [addBox_append]
      simp

/-- A fold of `addBox` pushes is the concatenation of the boxes' triangles. -/
theorem foldl_addBoxExtent_flatMap (sq : ℚ → ℚ) (exts : List Extent) :
    exts.foldl (addBoxExtent sq) [] = exts.flatMap (fun e => addBoxExtent sq [] e) := by
  induction exts with
  | nil => simp
  | cons e rest ih =>
      rw [List.foldl_cons, foldl_addBoxExtent_append, ih]
      simp

theorem addMountingTail_append (sq : ℚ → ℚ) (tris : List Triangle)
    (dims : ConvertedDimensions) (cfg : PrintConfig) :
    addMountingTail sq tris dims cfg = tris ++ addMountingTail sq [] dims cfg := by
  unfold addMountingTail
  exact foldl_addBoxExtent_append ..

-- ── Length lemmas ──

theorem prismEdgeTris_length (sq : ℚ → ℚ) (cx cy : ℚ) (p1 p2 : Point) (z0 z1 : ℚ) :
    (prismEdgeTris sq cx cy p1 p2 z0 z1).length = 4 := by
  simp [prismEdgeTris]

theorem prismTris_length (sq : ℚ → ℚ) (points : List Point) (z0 z1 : ℚ) :
    (prismTris sq points z0 z1).length = 4 * points.length := by
  unfold prismTris
  rw [List.length_flatMap]
  simp [Function.comp_def, prismEdgeTris_length, List.map_const]
  rw [mul_comm]

theorem addPrism_length (sq : ℚ → ℚ) (tris : List Triangle) (points : List Point)
    (z0 z1 : ℚ) (h : 3 ≤ points.length) :
    (addPrism sq tris points z0 z1).length = tris.length + 4 * points.length := by
  unfold addPrism
  rw [if_neg (by omega)]
  simp [prismTris_length]

theorem addBox_length (sq : ℚ → ℚ) (tris : List Triangle) (x0 y0 z0 x1 y1 z1 : ℚ) :
    (addBox sq tris x0 y0 z0 x1 y1 z1).length = tris.length + 16 := by
  unfold addBox
  rw [addPrism_length sq tris _ _ _ (by simp [boxPoints])]
  simp [boxPoints]

theorem addChamferedCorner_length (sq : ℚ → ℚ) (tris : List Triangle)
    (cx cy size z0 z1 chamfer : ℚ) :
    (addChamferedCorner sq tris cx cy size z0 z1 chamfer).length = tris.length + 32 := by
  unfold addChamferedCorner
  rw [addPrism_length sq tris _ _ _ (by simp [chamferPoints])]
  simp [chamferPoints]

theorem foldl_addBoxExtent_length (sq : ℚ → ℚ) (exts : List Extent) :
    ∀ tris : List Triangle,
      (exts.foldl (addBoxExtent sq) tris).length = tris.length + 16 * exts.length := by
  induction exts with
  | nil => simp
  | cons e rest ih =>
      intro tris
      rw [List.foldl_cons, ih]
      simp only [addBoxExtent, addBox_length, List.length_cons]
      ring

theorem addChannelX_length (sq : ℚ → ℚ) (tris : List Triangle) (xStart xEnd cy : ℚ)
    (cfg : PrintConfig) :
    (addChannelX sq tris xStart xEnd cy cfg).length = tris.length + 48 := by
  unfold addChannelX
  rw [foldl_addBoxExtent_length]
  simp [channelXExtents]

theorem addChannelY_length (sq : ℚ → ℚ) (tris : List Triangle) (yStart yEnd cx : ℚ)
    (cfg : PrintConfig) :
    (addChannelY sq tris yStart yEnd cx cfg).length = tris.length + 48 := by
  unfold addChannelY
  rw [foldl_addBoxExtent_length]
  simp [channelYExtents]

theorem addEndCap_length (sq : ℚ → ℚ) (tris : List Triangle) (cx yEdge : ℚ)
    (cfg : PrintConfig) (direction : CapDirection) :
    (addEndCap sq tris cx yEdge cfg direction).length = tris.length + 16 := by
  unfold addEndCap
  rw [foldl_addBoxExtent_length]
  simp [endCapExtents]

theorem addSideBridge_length (sq : ℚ → ℚ) (tris : List Triangle) (yStart yEnd cx : ℚ)
    (cfg : PrintConfig) :
    (addSideBridge sq tris yStart yEnd cx cfg).length = tris.length + 16 := by
  unfold addSideBridge
  rw [foldl_addBoxExtent_length]
  simp [sideBridgeExtents]

theorem mountingTailExtents_length (dims : ConvertedDimensions) (cfg : PrintConfig) :
    (mountingTailExtents dims cfg).length =
      if 0 < cfg.mountingHoleDiameter then 4 else 1 := by
  unfold mountingTailExtents
  split <;> simp

theorem addMountingTail_length (sq : ℚ → ℚ) (tris : List Triangle)
    (dims : ConvertedDimensions) (cfg : PrintConfig) :
    (addMountingTail sq tris dims cfg).length =
      tris.length + if 0 < cfg.mountingHoleDiameter then 64 else 16 := by
  unfold addMountingTail
  rw [foldl_addBoxExtent_length, mountingTailExtents_length]
  split <;> norm_num

/-- The composer's triangle count: 544 triangles without the mounting hole,
592 with it (the 4-box hole decomposition adds three boxes, 48 triangles). -/
theorem moxonTriangles_length (sq : ℚ → ℚ) (dims : ConvertedDimensions)
    (cfg : PrintConfig) :
    (moxonTriangles sq dims cfg).length =
      if 0 < cfg.mountingHoleDiameter then 592 else 544 := by
  unfold moxonTriangles
  rw [addMountingTail_length]
  simp only [addBox_length, addChamferedCorner_length, addSideBridge_length,
    addEndCap_length, addChannelY_length, addChannelX_length, List.length_nil]
  split <;> norm_num

-- ── Decomposition of the composer into its feature parts ──

/-- The 24 box extents of the channel / end-cap / bridge calls of
`generateMoxonStl`, in source order. -/
def moxonChannelExtents (dims : ConvertedDimensions) (cfg : PrintConfig) :
    List Extent :=
  channelXExtents (-(dims.a / 2)) (dims.a / 2) (driverY dims) cfg ++
  channelYExtents (driverY dims) (driverTailEnd dims) (-(dims.a / 2)) cfg ++
  channelYExtents (driverY dims) (driverTailEnd dims) (dims.a / 2) cfg ++
  endCapExtents (-(dims.a / 2)) (driverTailEnd dims) cfg CapDirection.positive ++
  endCapExtents (dims.a / 2) (driverTailEnd dims) cfg CapDirection.positive ++
  channelXExtents (-(dims.a / 2)) (dims.a / 2) (reflectorY dims) cfg ++
  channelYExtents (reflectorTailEnd dims) (reflectorY dims) (-(dims.a / 2)) cfg ++
  channelYExtents (reflectorTailEnd dims) (reflectorY dims) (dims.a / 2) cfg ++
  endCapExtents (-(dims.a / 2)) (reflectorTailEnd dims) cfg CapDirection.negative ++
  endCapExtents (dims.a / 2) (reflectorTailEnd dims) cfg CapDirection.negative ++
  sideBridgeExtents (driverTailEnd dims + cfg.wallThickness)
    (reflectorTailEnd dims - cfg.wallThickness) (-(dims.a / 2)) cfg ++
  sideBridgeExtents (driverTailEnd dims + cfg.wallThickness)
    (reflectorTailEnd dims - cfg.wallThickness) (dims.a / 2) cfg

/-- The triangles of the channel / end-cap / bridge features (the first 384
triangles of the composer's output). -/
def moxonChannelPart (sq : ℚ → ℚ) (dims : ConvertedDimensions)
    (cfg : PrintConfig) : List Triangle :=
  (moxonChannelExtents dims cfg).foldl (addBoxExtent sq) []

/-- The triangles of the four chamfered corner blocks (triangles 384–511 of
the composer's output). -/
def moxonCornerPart (sq : ℚ → ℚ) (dims : ConvertedDimensions)
    (cfg : PrintConfig) : List Triangle :=
  addChamferedCorner sq [] (-(dims.a / 2)) (driverY dims) (outerWidth cfg) 0
      (totalHeight cfg) cfg.cornerChamfer ++
    addChamferedCorner sq [] (dims.a / 2) (driverY dims) (outerWidth cfg) 0
      (totalHeight cfg) cfg.cornerChamfer ++
    addChamferedCorner sq [] (-(dims.a / 2)) (reflectorY dims) (outerWidth cfg) 0
      (totalHeight cfg) cfg.cornerChamfer ++
    addChamferedCorner sq [] (dims.a / 2) (reflectorY dims) (outerWidth cfg) 0
      (totalHeight cfg) cfg.cornerChamfer

/-- The extent of the central boom box. -/
def boomExtent (dims : ConvertedDimensions) (cfg : PrintConfig) : Extent :=
  ⟨-(cfg.boomWidth / 2), boomStart dims cfg, 0, cfg.boomWidth / 2,
    boomBodyEnd dims cfg, boomHeight cfg⟩

/-- The triangles of the central boom box and the mounting tail (the final
triangles of the composer's output). -/
def moxonBoomTailPart (sq : ℚ → ℚ) (dims : ConvertedDimensions)
    (cfg : PrintConfig) : List Triangle :=
  (boomExtent dims cfg :: mountingTailExtents dims cfg).foldl (addBoxExtent sq) []

/-- The composer's output splits into: the channel / end-cap / bridge boxes,
then the four corner blocks, then the boom and mounting tail. -/
theorem moxon_decomp (sq : ℚ → ℚ) (dims : ConvertedDimensions) (cfg : PrintConfig) :
    moxonTriangles sq dims cfg =
      moxonChannelPart sq dims cfg ++ moxonCornerPart sq dims cfg ++
        moxonBoomTailPart sq dims cfg := by
  simp only [moxonTriangles, moxonChannelPart, moxonCornerPart, moxonBoomTailPart,
    moxonChannelExtents, addChannelX, addChannelY, addEndCap, addSideBridge,
    addMountingTail]
  rw [foldl_addBoxExtent_append]
  rw [addBox_append sq]
  rw [addChamferedCorner_append, addChamferedCorner_append, addChamferedCorner_append,
    addChamferedCorner_append]
  rw [List.foldl_cons,
    foldl_addBoxExtent_append sq (mountingTailExtents dims cfg)
      (addBoxExtent sq [] (boomExtent dims cfg))]
  simp [List.foldl_append, addBoxExtent, boomExtent, List.append_assoc]

theorem moxonChannelPart_length (sq : ℚ → ℚ) (dims : ConvertedDimensions)
    (cfg : PrintConfig) : (moxonChannelPart sq dims cfg).length = 384 := by
  unfold moxonChannelPart
  rw [foldl_addBoxExtent_length]
  simp [moxonChannelExtents, channelXExtents, channelYExtents, endCapExtents,
    sideBridgeExtents]

theorem moxonCornerPart_length (sq : ℚ → ℚ) (dims : ConvertedDimensions)
    (cfg : PrintConfig) : (moxonCornerPart sq dims cfg).length = 128 := by
  unfold moxonCornerPart
  simp [addChamferedCorner_length]

-- ── Scaling lemmas ──

/-- Scale every component of an extent. -/
def Extent.scale (k : ℚ) (e : Extent) : Extent :=
  ⟨k * e.x0, k * e.y0, k * e.z0, k * e.x1, k * e.y1, k * e.z1⟩

theorem scale_a (k : ℚ) (d : ConvertedDimensions) :
    (ConvertedDimensions.scale k d).a = k * d.a := rfl

theorem cfgScale_wire (k : ℚ) (c : PrintConfig) :
    (PrintConfig.scale k c).wireDiameterMm = k * c.wireDiameterMm := rfl

theorem cfgScale_tol (k : ℚ) (c : PrintConfig) :
    (PrintConfig.scale k c).tolerance = k * c.tolerance := rfl

theorem cfgScale_wall (k : ℚ) (c : PrintConfig) :
    (PrintConfig.scale k c).wallThickness = k * c.wallThickness := rfl

theorem cfgScale_floor (k : ℚ) (c : PrintConfig) :
    (PrintConfig.scale k c).floorThickness = k * c.floorThickness := rfl

theorem cfgScale_channel (k : ℚ) (c : PrintConfig) :
    (PrintConfig.scale k c).channelHeight = k * c.channelHeight := rfl

theorem driverY_scale (k : ℚ) (dims : ConvertedDimensions) :
    driverY (dims.scale k) = k * driverY dims := by
  simp only [driverY, ConvertedDimensions.scale]
  ring

theorem reflectorY_scale (k : ℚ) (dims : ConvertedDimensions) :
    reflectorY (dims.scale k) = k * reflectorY dims := by
  simp only [reflectorY, ConvertedDimensions.scale]
  ring

theorem driverTailEnd_scale (k : ℚ) (dims : ConvertedDimensions) :
    driverTailEnd (dims.scale k) = k * driverTailEnd dims := by
  simp only [driverTailEnd, driverY, ConvertedDimensions.scale]
  ring

theorem reflectorTailEnd_scale (k : ℚ) (dims : ConvertedDimensions) :
    reflectorTailEnd (dims.scale k) = k * reflectorTailEnd dims := by
  simp only [reflectorTailEnd, reflectorY, ConvertedDimensions.scale]
  ring

theorem getD_pmul (k : ℚ) (pts : List Point) (i : ℕ) :
    (pts.map (pmul k)).getD i (0, 0) = pmul k (pts.getD i (0, 0)) := by
  have h : pmul k (0, 0) = ((0 : ℚ), (0 : ℚ)) := by simp [pmul]
  rw [← h, List.getD_map, h]

theorem prismEdgeTris_scale (sq sq' : ℚ → ℚ) (k cx cy : ℚ) (p1 p2 : Point)
    (z0 z1 : ℚ) :
    (prismEdgeTris sq' (k * cx) (k * cy) (pmul k p1) (pmul k p2) (k * z0) (k * z1)).map
        vertsOf =
      (prismEdgeTris sq cx cy p1 p2 z0 z1).map fun t => vertsMul k (vertsOf t) := by
  simp [prismEdgeTris, vertsOf, vertsMul, vmul, pmul]

theorem prismTris_scale (sq sq' : ℚ → ℚ) (k : ℚ) (points : List Point) (z0 z1 : ℚ) :
    (prismTris sq' (points.map (pmul k)) (k * z0) (k * z1)).map vertsOf =
      (prismTris sq points z0 z1).map fun t => vertsMul k (vertsOf t) := by
  simp only [prismTris, List.length_map]
  rw [List.map_flatMap, List.map_flatMap]
  refine List.flatMap_congr ?_
  intro i hi
  have hfst : (points.map (pmul k)).map Prod.fst = points.map fun p => k * p.1 := by
    rw [List.map_map]
    refine List.map_congr_left ?_
    intro p hp
    simp [pmul]
  have hsnd : (points.map (pmul k)).map Prod.snd = points.map fun p => k * p.2 := by
    rw [List.map_map]
    refine List.map_congr_left ?_
    intro p hp
    simp [pmul]
  have hcx : ((points.map (pmul k)).map Prod.fst).sum / ((points.length : ℚ)) =
      k * (((points.map Prod.fst).sum) / ((points.length : ℚ))) := by
    rw [hfst, List.sum_map_mul_left, mul_div_assoc]
  have hcy : ((points.map (pmul k)).map Prod.snd).sum / ((points.length : ℚ)) =
      k * (((points.map Prod.snd).sum) / ((points.length : ℚ))) := by
    rw [hsnd, List.sum_map_mul_left, mul_div_assoc]
  rw [hcx, hcy, getD_pmul, getD_pmul]
  exact prismEdgeTris_scale ..

theorem addBox_scale (sq sq' : ℚ → ℚ) (k x0 y0 z0 x1 y1 z1 : ℚ) :
    (addBox sq' [] (k * x0) (k * y0) (k * z0) (k * x1) (k * y1) (k * z1)).map vertsOf =
      (addBox sq [] x0 y0 z0 x1 y1 z1).map fun t => vertsMul k (vertsOf t) := by
  unfold addBox addPrism
  rw [if_neg (by simp [boxPoints]), if_neg (by simp [boxPoints])]
  simp only [List.nil_append]
  have h : boxPoints (k * x0) (k * y0) (k * x1) (k * y1) =
      (boxPoints x0 y0 x1 y1).map (pmul k) := by
    simp [boxPoints, pmul]
  rw [h]
  exact prismTris_scale ..

theorem addBoxExtent_scale (sq sq' : ℚ → ℚ) (k : ℚ) (e : Extent) :
    (addBoxExtent sq' [] (Extent.scale k e)).map vertsOf =
      (addBoxExtent sq [] e).map fun t => vertsMul k (vertsOf t) := by
  unfold addBoxExtent Extent.scale
  exact addBox_scale ..

theorem foldl_addBoxExtent_scale (sq sq' : ℚ → ℚ) (k : ℚ) (exts : List Extent) :
    ((exts.map (Extent.scale k)).foldl (addBoxExtent sq') []).map vertsOf =
      (exts.foldl (addBoxExtent sq) []).map fun t => vertsMul k (vertsOf t) := by
  induction exts with
  | nil => simp
  | cons e rest ih =>
      simp only [List.map_cons, List.foldl_cons]
      rw [foldl_addBoxExtent_append sq' (rest.map (Extent.scale k)),
        foldl_addBoxExtent_append sq rest, List.map_append, List.map_append, ih]
      rw [addBoxExtent_scale sq sq' k e]

/-- Every channel, end-cap and bridge extent scales exactly with the inputs. -/
theorem moxonChannelExtents_scale (k : ℚ) (hk : 0 ≤ k)
    (dims : ConvertedDimensions) (cfg : PrintConfig) :
    moxonChannelExtents (dims.scale k) (cfg.scale k) =
      (moxonChannelExtents dims cfg).map (Extent.scale k) := by
  have hmin : ∀ p q : ℚ, min (k * p) (k * q) = k * min p q := fun p q =>
    (mul_min_of_nonneg p q hk).symm
  have hmax : ∀ p q : ℚ, max (k * p) (k * q) = k * max p q := fun p q =>
    (mul_max_of_nonneg p q hk).symm
  have hplus : k * driverTailEnd dims + k * cfg.wallThickness =
      k * (driverTailEnd dims + cfg.wallThickness) := by ring
  have hminus : k * reflectorTailEnd dims - k * cfg.wallThickness =
      k * (reflectorTailEnd dims - cfg.wallThickness) := by ring
  unfold moxonChannelExtents channelXExtents channelYExtents endCapExtents sideBridgeExtents
  simp only [driverY_scale, reflectorY_scale, driverTailEnd_scale, reflectorTailEnd_scale,
    scale_a, cfgScale_wire, cfgScale_tol, cfgScale_wall, cfgScale_floor, cfgScale_channel,
    hplus, hminus, hmin, hmax, List.map_append, List.map_cons, List.map_nil,
    Extent.scale, List.cons_append, List.nil_append, List.cons.injEq, Extent.mk.injEq]
  repeat' apply And.intro
  all_goals ring

theorem cfgScale_chamfer (k : ℚ) (c : PrintConfig) :
    (PrintConfig.scale k c).cornerChamfer = k * c.cornerChamfer := rfl

theorem outerWidth_scale (k : ℚ) (cfg : PrintConfig) :
    outerWidth (cfg.scale k) = k * outerWidth cfg := by
  simp only [outerWidth, PrintConfig.scale]
  ring

theorem totalHeight_scale (k : ℚ) (cfg : PrintConfig) :
    totalHeight (cfg.scale k) = k * totalHeight cfg := by
  simp only [totalHeight, PrintConfig.scale]
  ring

/-- When the chamfer clamp is inactive in both the plain and the scaled run,
the octagon boundary scales exactly. -/
theorem chamferPoints_scale (k cx cy size chamfer : ℚ)
    (h1 : chamfer ≤ size / 2 - 1/10) (h2 : k * chamfer ≤ k * size / 2 - 1/10) :
    chamferPoints (k * cx) (k * cy) (k * size) (k * chamfer) =
      (chamferPoints cx cy size chamfer).map (pmul k) := by
  unfold chamferPoints
  simp only [min_eq_left h1, min_eq_left h2, List.map_cons, List.map_nil, pmul,
    List.cons.injEq, Prod.mk.injEq]
  repeat' apply And.intro
  all_goals ring

/-- The four corner blocks scale exactly when the chamfer clamp binds the
same way in the plain and the scaled run. -/
theorem moxonCornerPart_scale (sq sq' : ℚ → ℚ) (k : ℚ)
    (dims : ConvertedDimensions) (cfg : PrintConfig)
    (h1 : cfg.cornerChamfer ≤ outerWidth cfg / 2 - 1/10)
    (h2 : k * cfg.cornerChamfer ≤ k * outerWidth cfg / 2 - 1/10) :
    (moxonCornerPart sq' (dims.scale k) (cfg.scale k)).map vertsOf =
      (moxonCornerPart sq dims cfg).map fun t => vertsMul k (vertsOf t) := by
  have corner : ∀ cx CX : ℚ, CX = k * cx → ∀ cy CY : ℚ, CY = k * cy →
      (addChamferedCorner sq' [] CX CY (k * outerWidth cfg) 0 (k * totalHeight cfg)
          (k * cfg.cornerChamfer)).map vertsOf =
        (addChamferedCorner sq [] cx cy (outerWidth cfg) 0 (totalHeight cfg)
          cfg.cornerChamfer).map fun t => vertsMul k (vertsOf t) := by
    rintro cx CX rfl cy CY rfl
    unfold addChamferedCorner addPrism
    rw [if_neg (by simp [chamferPoints]), if_neg (by simp [chamferPoints])]
    simp only [List.nil_append]
    rw [chamferPoints_scale k cx cy (outerWidth cfg) cfg.cornerChamfer h1 h2]
    conv_lhs => rw [show (0 : ℚ) = k * 0 by ring]
    exact prismTris_scale ..
  unfold moxonCornerPart
  simp only [outerWidth_scale, totalHeight_scale, cfgScale_chamfer, List.map_append]
  rw [corner (-(dims.a / 2)) _ (by rw [scale_a]; ring) (driverY dims) _ (driverY_scale k dims),
    corner (dims.a / 2) _ (by rw [scale_a]; ring) (driverY dims) _ (driverY_scale k dims),
    corner (-(dims.a / 2)) _ (by rw [scale_a]; ring) (reflectorY dims) _ (reflectorY_scale k dims),
    corner (dims.a / 2) _ (by rw [scale_a]; ring) (reflectorY dims) _ (reflectorY_scale k dims)]

theorem moxonChannelPart_scale (sq sq' : ℚ → ℚ) (k : ℚ) (hk : 0 ≤ k)
    (dims : ConvertedDimensions) (cfg : PrintConfig) :
    (moxonChannelPart sq' (dims.scale k) (cfg.scale k)).map vertsOf =
      (moxonChannelPart sq dims cfg).map fun t => vertsMul k (vertsOf t) := by
  unfold moxonChannelPart
  rw [moxonChannelExtents_scale k hk]
  exact foldl_addBoxExtent_scale ..

-- ── Encoder support lemmas ──

theorem headerCodes_length : headerCodes.length = 51 := by decide

theorem headerBytes_length : headerBytes.length = 80 := by
  simp [headerBytes]

theorem u32le_length (n : ℕ) : (u32le n).length = 4 := by
  simp [u32le]

theorem byte4List_length (b : Byte4) : (byte4List b).length = 4 := by
  simp [byte4List]

theorem vecBytes_length (f32 : ℚ → Byte4) (v : Vec3) : (vecBytes f32 v).length = 12 := by
  simp [vecBytes, byte4List]

theorem triRecord_length (f32 : ℚ → Byte4) (t : Triangle) :
    (triRecord f32 t).length = 50 := by
  simp [triRecord, vecBytes, byte4List]

theorem flatMap_triRecord_length (f32 : ℚ → Byte4) (tris : List Triangle) :
    (tris.flatMap (triRecord f32)).length = 50 * tris.length := by
  rw [List.length_flatMap]
  have h : tris.map (List.length ∘ triRecord f32) = tris.map fun _ => 50 := by
    refine List.map_congr_left ?_
    intro t ht
    simp [triRecord_length]
  rw [h]
  simp [List.map_const, mul_comm]

/-- The 50-byte window at offset `50·i` of the concatenated triangle records
is exactly triangle `i`'s record. -/
theorem flatMap_triRecord_slice (f32 : ℚ → Byte4) :
    ∀ (tris : List Triangle) (i : ℕ) (hi : i < tris.length),
      ((tris.flatMap (triRecord f32)).drop (50 * i)).take 50 =
        triRecord f32 (tris.get ⟨i, hi⟩) := by
  intro tris
  induction tris with
  | nil =>
      intro i hi
      simp at hi
  | cons t rest ih =>
      intro i hi
      cases i with
      | zero =>
          rw [List.flatMap_cons, Nat.mul_zero, List.drop_zero]
          rw [show (50 : ℕ) = (triRecord f32 t).length from (triRecord_length f32 t).symm,
            List.take_left]
          rfl
      | succ n =>
          rw [List.flatMap_cons,
            show 50 * (n + 1) = (triRecord f32 t).length + 50 * n by
              rw [triRecord_length]; ring,
            List.drop_append]
          rw [ih n (by simpa using Nat.lt_of_succ_lt_succ hi)]
          rfl

theorem triRecord_drop48 (f32 : ℚ → Byte4) (t : Triangle) :
    (triRecord f32 t).drop 48 = [0, 0] := by
  simp only [triRecord, vecBytes, byte4List, List.cons_append, List.nil_append]
  rfl

/-- The 50-byte window of the full buffer at offset `84 + 50·i` is triangle
`i`'s record. -/
theorem stlBytes_record_slice (f32 : ℚ → Byte4) (tris : List Triangle) (i : ℕ)
    (hi : i < tris.length) :
    ((stlBytes f32 tris).drop (84 + 50 * i)).take 50 =
      triRecord f32 (tris.get ⟨i, hi⟩) := by
  unfold stlBytes
  rw [show 84 + 50 * i = headerBytes.length + (4 + 50 * i) by
    rw [headerBytes_length]; omega]
  rw [List.drop_append]
  rw [show 4 + 50 * i = (u32le tris.length).length + 50 * i by rw [u32le_length]]
  rw [List.drop_append]
  exact flatMap_triRecord_slice f32 tris i hi

-- ── Concrete instances used by witnesses and counterexamples ──

/-- A concrete stand-in for the abstract `Math.sqrt` parameter. -/
def sqZero : ℚ → ℚ := fun _ => 0

/-- A concrete stand-in for the abstract `setFloat32` byte encoder. -/
def f32Zero : ℚ → Byte4 := fun _ => (0, 0, 0, 0)

/-- Concrete converted dimensions (mm): `a = 40`, `b = 3`, `c = 4`, `d = 3`,
`e = 10`; chosen so that `e - b - d - 2·wallThickness = 0` at the default
wall thickness. -/
def dimsEx : ConvertedDimensions :=
  { a := 40, b := 3, c := 4, d := 3, e := 10, drivenCutLength := 46
    reflectorCutLength := 46, wavelength := 1, wireDiameter := 2 }

/-- The default configuration with the mounting hole disabled. -/
def cfgNoHole : PrintConfig :=
  { DEFAULT_PRINT_CONFIG with mountingHoleDiameter := 0 }

-- ── Claims ──

/-- C1: for every triangle sequence, the encoding pass of `generateMoxonStl`
produces a byte buffer of length exactly `84 + 50·N`; bytes 80–83 hold `N`
as a little-endian unsigned 32-bit integer; the first 80 bytes are the
header text padded with zero bytes; the 50-byte record at offset `84 + 50·i`
holds triangle `i`'s normal and three vertices as twelve little-endian
32-bit floats followed by a 2-byte trailing field equal to zero. -/
theorem C1_stl_layout (f32 : ℚ → Byte4) (tris : List Triangle) :
    (stlBytes f32 tris).length = 84 + 50 * tris.length ∧
    ((stlBytes f32 tris).drop 80).take 4 = u32le tris.length ∧
    (stlBytes f32 tris).take 80 = headerBytes ∧
    (∀ j : ℕ, headerCodes.length ≤ j → j < 80 → (stlBytes f32 tris).getD j 0 = 0) ∧
    ∀ (i : ℕ) (hi : i < tris.length),
      ((stlBytes f32 tris).drop (84 + 50 * i)).take 50 =
          triRecord f32 (tris.get ⟨i, hi⟩) ∧
        ((stlBytes f32 tris).drop (84 + 50 * i + 48)).take 2 = [0, 0] := by
  refine ⟨?_, ?_, ?_, ?_, ?_⟩
  · simp only [stlBytes, List.length_append, headerBytes_length, u32le_length,
      flatMap_triRecord_length]
    omega
  · unfold stlBytes
    rw [show (80 : ℕ) = headerBytes.length from headerBytes_length.symm, List.drop_left,
      show (4 : ℕ) = (u32le tris.length).length from (u32le_length _).symm, List.take_left]
  · unfold stlBytes
    rw [show (80 : ℕ) = headerBytes.length from headerBytes_length.symm, List.take_left]
  · intro j h51 h80
    unfold stlBytes
    rw [List.getD_append _ _ _ j (by rw [headerBytes_length]; exact h80)]
    unfold headerBytes
    rw [List.getD_eq_getElem?_getD, List.getElem?_map, List.getElem?_range h80]
    simpa using List.getD_eq_default _ _ h51
  · intro i hi
    refine ⟨stlBytes_record_slice f32 tris i hi, ?_⟩
    rw [show 84 + 50 * i + 48 = (84 + 50 * i) + 48 from rfl, ← List.drop_drop,
      show (2 : ℕ) = 50 - 48 from rfl, ← List.drop_take,
      stlBytes_record_slice f32 tris i hi, triRecord_drop48]

/-- C1 witness: the layout facts evaluated for the one-triangle sequence,
with every hypothesis discharged at `i = 0` and `j = 60`. -/
theorem C1_stl_layout_witness :
    (stlBytes f32Zero [default]).length = 84 + 50 * 1 ∧
      ((stlBytes f32Zero [default]).drop 80).take 4 = u32le 1 ∧
      (stlBytes f32Zero [default]).getD 60 0 = 0 ∧
      ((stlBytes f32Zero [default]).drop 84).take 50 = triRecord f32Zero default ∧
      ((stlBytes f32Zero [default]).drop (84 + 48)).take 2 = [0, 0] := by
  have h := C1_stl_layout f32Zero [default]
  refine ⟨h.1, h.2.1, h.2.2.2.1 60 (by decide) (by decide), ?_, ?_⟩
  · have := (h.2.2.2.2 0 (by decide)).1
    simpa using this
  · have := (h.2.2.2.2 0 (by decide)).2
    simpa using this

/-- C2 counterexample: at a concrete corner block (`size = 10`, z-range
`[0, 5]`) a chamfer of `0` still emits the octagonal prism's 32 triangles,
not the box's count over the same square footprint. -/
theorem C2_chamfer_cex :
    (addChamferedCorner sqZero [] 0 0 10 0 5 0).length = 32 ∧
      (addBox sqZero [] (-5) (-5) 0 5 5 5).length = 16 ∧
      (addChamferedCorner sqZero [] 0 0 10 0 5 0).length ≠
        (addBox sqZero [] (-5) (-5) 0 5 5 5).length := by
  refine ⟨?_, ?_, ?_⟩
  · simp [addChamferedCorner_length]
  · simp [addBox_length]
  · simp [addChamferedCorner_length, addBox_length]

/-- C2 amended: with `chamfer = 0` (and `size ≥ 0.2` so the clamp keeps the
cut at `0`) the octagon collapses onto the box's square footprint — its
point set equals the rectangle's corner set — but `addChamferedCorner`
still emits `tris.length + 32` triangles (four per boundary point, the
octagonal prism's count), not the box's `tris.length + 16`; there is no
`chamfer ≤ 0` plain-box fallback in the code. -/
theorem C2_chamfer_amended (sq : ℚ → ℚ) (tris : List Triangle)
    (cx cy size z0 z1 : ℚ) (hsize : 1/5 ≤ size) :
    (addChamferedCorner sq tris cx cy size z0 z1 0).length = tris.length + 32 ∧
      (chamferPoints cx cy size 0).toFinset =
        (boxPoints (cx - size / 2) (cy - size / 2) (cx + size / 2)
          (cy + size / 2)).toFinset := by
  refine ⟨addChamferedCorner_length .., ?_⟩
  simp only [chamferPoints, boxPoints]
  rw [min_eq_left (by linarith : (0 : ℚ) ≤ size / 2 - 1/10)]
  simp only [add_zero, sub_zero]
  ext p
  simp only [List.toFinset_cons, List.toFinset_nil, insert_emptyc_eq, Finset.mem_insert,
    Finset.mem_singleton]
  tauto

/-- C2 witness: the amended statement applied at the concrete corner of the
counterexample, with the size hypothesis discharged. -/
theorem C2_chamfer_amended_witness :
    (1 : ℚ)/5 ≤ 10 ∧
      (addChamferedCorner sqZero [] 0 0 10 0 5 0).length = ([] : List Triangle).length + 32 := by
  refine ⟨by norm_num, (C2_chamfer_amended sqZero [] 0 0 10 0 5 (by norm_num)).1⟩

/-- C3 counterexample: at `e = 10`, `b = d = 3`, `wallThickness = 2` the
bridge span `e - b - d - 2·wallThickness` is `0`; `generateMoxonStl` calls
`addSideBridge` with equal span endpoints and every bridge vertex has
y-coordinate `0`, so the bridge box's y-extent is `0`, not the claimed
`0.1` mm floor. -/
theorem C3_bridge_cex :
    driverTailEnd dimsEx + DEFAULT_PRINT_CONFIG.wallThickness = 0 ∧
      reflectorTailEnd dimsEx - DEFAULT_PRINT_CONFIG.wallThickness = 0 ∧
      addSideBridge sqZero [] 0 0 (-(dimsEx.a / 2)) DEFAULT_PRINT_CONFIG =
        addBox sqZero [] (-22) 0 0 (-18) 0 2 ∧
      (0 : ℚ) - 0 ≠ 1/10 := by
  refine ⟨?_, ?_, ?_, by norm_num⟩
  · norm_num [driverTailEnd, driverY, dimsEx, DEFAULT_PRINT_CONFIG]
  · norm_num [reflectorTailEnd, reflectorY, dimsEx, DEFAULT_PRINT_CONFIG]
  · simp only [addSideBridge, sideBridgeExtents, addBoxExtent, List.foldl_cons,
      List.foldl_nil]
    norm_num [DEFAULT_PRINT_CONFIG, dimsEx]

/-- C3 amended: the side bridge is the box over the min/max-ordered
y-interval of its two span endpoints, and — called as `generateMoxonStl`
calls it — that interval's length is exactly `|e - b - d - 2·wallThickness|`;
no `0.1` mm floor is applied. -/
theorem C3_bridge_amended (sq : ℚ → ℚ) (tris : List Triangle)
    (dims : ConvertedDimensions) (cfg : PrintConfig) (cx : ℚ) :
    addSideBridge sq tris (driverTailEnd dims + cfg.wallThickness)
        (reflectorTailEnd dims - cfg.wallThickness) cx cfg =
      addBox sq tris (cx - cfg.wallThickness * 2 / 2)
        (min (driverTailEnd dims + cfg.wallThickness)
          (reflectorTailEnd dims - cfg.wallThickness)) 0
        (cx + cfg.wallThickness * 2 / 2)
        (max (driverTailEnd dims + cfg.wallThickness)
          (reflectorTailEnd dims - cfg.wallThickness)) cfg.floorThickness ∧
      max (driverTailEnd dims + cfg.wallThickness)
          (reflectorTailEnd dims - cfg.wallThickness) -
        min (driverTailEnd dims + cfg.wallThickness)
          (reflectorTailEnd dims - cfg.wallThickness) =
        |dims.e - dims.b - dims.d - 2 * cfg.wallThickness| := by
  constructor
  · rfl
  · rw [max_sub_min_eq_abs]
    congr 1
    simp only [driverTailEnd, reflectorTailEnd, driverY, reflectorY]
    ring

/-- C4 counterexample: a concrete `addBox` call appends 16 triangles, not 12
(`addPrism` fan-triangulates each cap from the centroid: 4 + 4 cap triangles
plus 8 side triangles). -/
theorem C4_box_cex :
    (addBox sqZero [] 0 0 0 1 1 1).length = 16 ∧
      (addBox sqZero [] 0 0 0 1 1 1).length ≠ 12 := by
  constructor
  · simp [addBox_length]
  · simp [addBox_length]

/-- C4 amended: for every axis-aligned extent with `x0 < x1`, `y0 < y1`,
`z0 < z1`, `addBox` appends exactly 16 triangles (4 per rectangle edge:
one bottom-cap fan triangle, one top-cap fan triangle, two side
triangles), not 12. -/
theorem C4_box_amended (sq : ℚ → ℚ) (tris : List Triangle) (x0 y0 z0 x1 y1 z1 : ℚ)
    (_hx : x0 < x1) (_hy : y0 < y1) (_hz : z0 < z1) :
    (addBox sq tris x0 y0 z0 x1 y1 z1).length = tris.length + 16 :=
  addBox_length ..

/-- C4 witness: the amended count at the unit box, hypotheses discharged. -/
theorem C4_box_amended_witness :
    ((0 : ℚ) < 1 ∧ (0 : ℚ) < 1 ∧ (0 : ℚ) < 1) ∧
      (addBox sqZero [] 0 0 0 1 1 1).length = ([] : List Triangle).length + 16 :=
  ⟨⟨by norm_num, by norm_num, by norm_num⟩,
    C4_box_amended sqZero [] 0 0 0 1 1 1 (by norm_num) (by norm_num) (by norm_num)⟩

/-- Element 1 of the boom/tail part is the boom box's first top-cap fan
triangle, whose `v1` has z-coordinate `boomHeight cfg = floorThickness + 1.5`. -/
theorem moxonBoomTailPart_getD_one (sq : ℚ → ℚ) (dims : ConvertedDimensions)
    (cfg : PrintConfig) :
    ((moxonBoomTailPart sq dims cfg).getD 1 default).v1.2.2 = boomHeight cfg := by
  unfold moxonBoomTailPart
  rw [List.foldl_cons, foldl_addBoxExtent_append]
  rw [List.getD_append _ _ _ 1
    (by rw [show (addBoxExtent sq [] (boomExtent dims cfg)).length = 16 by
        simp [addBoxExtent, addBox_length]]; norm_num)]
  simp [addBoxExtent, addBox, addPrism, boxPoints, prismTris, prismEdgeTris,
    List.range_succ, boomExtent]

/-- C5 counterexample: at the default configuration and `k = 2`, triangle
513 (the boom box's first top-cap triangle) has `v1` z-coordinate
`2·floorThickness + 1.5 = 5.5` in the scaled run but `3.5` in the plain
run, and `5.5 ≠ 2 · 3.5` — the boom height's `+1.5` mm is not scaled, so
not every vertex coordinate is multiplied by `k`. -/
theorem C5_scale_cex :
    ((moxonTriangles sqZero (dimsEx.scale 2) (DEFAULT_PRINT_CONFIG.scale 2)).getD 513
        default).v1.2.2 = 11/2 ∧
      ((moxonTriangles sqZero dimsEx DEFAULT_PRINT_CONFIG).getD 513 default).v1.2.2 =
        7/2 ∧
      ¬((11/2 : ℚ) = 2 * (7/2)) := by
  have hget : ∀ (sq : ℚ → ℚ) (dims : ConvertedDimensions) (cfg : PrintConfig),
      (moxonTriangles sq dims cfg).getD 513 default =
        (moxonBoomTailPart sq dims cfg).getD 1 default := by
    intro sq dims cfg
    rw [moxon_decomp]
    have hlen : (moxonChannelPart sq dims cfg ++ moxonCornerPart sq dims cfg).length
        = 512 := by
      rw [List.length_append, moxonChannelPart_length, moxonCornerPart_length]
    rw [List.getD_append_right _ _ _ 513 (by rw [hlen]; norm_num), hlen]
  refine ⟨?_, ?_, by norm_num⟩
  · rw [hget, moxonBoomTailPart_getD_one]
    norm_num [boomHeight, PrintConfig.scale, DEFAULT_PRINT_CONFIG]
  · rw [hget, moxonBoomTailPart_getD_one]
    norm_num [boomHeight, DEFAULT_PRINT_CONFIG]

/-- C5 amended: scaling every length field of `ConvertedDimensions` and
`PrintConfig` by `k > 0` leaves the triangle count unchanged, and scales
every vertex coordinate of the channel, end-cap and bridge triangles (the
first 384) exactly by `k`; the corner blocks (through triangle 511) scale
as well whenever the chamfer clamp `min(chamfer, halfOuter - 0.1)` is
non-binding in both runs.  The boom and mounting-tail triangles are the
exception (their top height `floorThickness + 1.5` has an unscaled
constant; see the counterexample). -/
theorem C5_scale_amended (sq sq' : ℚ → ℚ) (k : ℚ) (dims : ConvertedDimensions)
    (cfg : PrintConfig) (hk : 0 < k) :
    (moxonTriangles sq' (dims.scale k) (cfg.scale k)).length =
        (moxonTriangles sq dims cfg).length ∧
      (((moxonTriangles sq' (dims.scale k) (cfg.scale k)).take 384).map vertsOf =
        ((moxonTriangles sq dims cfg).take 384).map fun t => vertsMul k (vertsOf t)) ∧
      (cfg.cornerChamfer ≤ outerWidth cfg / 2 - 1/10 →
        k * cfg.cornerChamfer ≤ k * outerWidth cfg / 2 - 1/10 →
        ((moxonTriangles sq' (dims.scale k) (cfg.scale k)).take 512).map vertsOf =
          ((moxonTriangles sq dims cfg).take 512).map fun t => vertsMul k (vertsOf t)) := by
  have htake : ∀ (L X : List Triangle) (n : ℕ), L.length = n → (L ++ X).take n = L := by
    intro L X n h
    rw [← h, List.take_left]
  refine ⟨?_, ?_, ?_⟩
  · rw [moxonTriangles_length, moxonTriangles_length]
    by_cases h : 0 < cfg.mountingHoleDiameter
    · rw [if_pos (by simpa [PrintConfig.scale] using mul_pos hk h), if_pos h]
    · rw [if_neg (by
        simp only [PrintConfig.scale]
        exact not_lt.mpr (mul_nonpos_of_nonneg_of_nonpos hk.le (not_lt.mp h))),
        if_neg h]
  · rw [moxon_decomp, moxon_decomp, List.append_assoc, List.append_assoc]
    rw [htake _ _ _ (moxonChannelPart_length ..), htake _ _ _ (moxonChannelPart_length ..)]
    exact moxonChannelPart_scale sq sq' k hk.le dims cfg
  · intro h1 h2
    rw [moxon_decomp, moxon_decomp]
    rw [htake _ _ _ (by simp [moxonChannelPart_length, moxonCornerPart_length]),
      htake _ _ _ (by simp [moxonChannelPart_length, moxonCornerPart_length])]
    rw [List.map_append, List.map_append]
    rw [moxonChannelPart_scale sq sq' k hk.le dims cfg,
      moxonCornerPart_scale sq sq' k dims cfg h1 h2]

/-- C5 witness: the amended statement at `k = 2`, the concrete dimensions
and the default configuration, all hypotheses discharged. -/
theorem C5_scale_amended_witness :
    (0 : ℚ) < 2 ∧
      (moxonTriangles sqZero (dimsEx.scale 2) (DEFAULT_PRINT_CONFIG.scale 2)).length =
        (moxonTriangles sqZero dimsEx DEFAULT_PRINT_CONFIG).length ∧
      ((moxonTriangles sqZero (dimsEx.scale 2) (DEFAULT_PRINT_CONFIG.scale 2)).take
          512).map vertsOf =
        ((moxonTriangles sqZero dimsEx DEFAULT_PRINT_CONFIG).take 512).map fun t =>
          vertsMul 2 (vertsOf t) := by
  have h := C5_scale_amended sqZero sqZero 2 dimsEx DEFAULT_PRINT_CONFIG (by norm_num)
  exact ⟨by norm_num, h.1,
    h.2.2 (by norm_num [outerWidth, DEFAULT_PRINT_CONFIG])
      (by norm_num [outerWidth, DEFAULT_PRINT_CONFIG])⟩

/-- C9: the triangle count emitted by the composer depends only on whether
`mountingHoleDiameter > 0` — equal hole-predicates give equal counts for
any dimensions, any lengths and any square-root oracle — and the hole
variant exceeds the solid variant by the fixed delta 48 (the three extra
boxes of the 4-box hole decomposition). -/
theorem C9_triangle_count (sq sq' : ℚ → ℚ) (dims dims' : ConvertedDimensions)
    (cfg cfg' : PrintConfig) :
    ((0 < cfg.mountingHoleDiameter ↔ 0 < cfg'.mountingHoleDiameter) →
      (moxonTriangles sq dims cfg).length = (moxonTriangles sq' dims' cfg').length) ∧
    (cfg.mountingHoleDiameter ≤ 0 → 0 < cfg'.mountingHoleDiameter →
      (moxonTriangles sq' dims' cfg').length =
        (moxonTriangles sq dims cfg).length + 48) := by
  constructor
  · intro hiff
    rw [moxonTriangles_length, moxonTriangles_length]
    by_cases h : 0 < cfg.mountingHoleDiameter
    · rw [if_pos h, if_pos (hiff.mp h)]
    · rw [if_neg h, if_neg fun h' => h (hiff.mpr h')]
  · intro h1 h2
    rw [moxonTriangles_length, moxonTriangles_length, if_pos h2,
      if_neg (not_lt.mpr h1)]

/-- C9 witness: 592 versus 544 triangles at the concrete inputs — the fixed
delta 48 between the hole and no-hole variants. -/
theorem C9_triangle_count_witness :
    (moxonTriangles sqZero dimsEx DEFAULT_PRINT_CONFIG).length =
      (moxonTriangles sqZero dimsEx cfgNoHole).length + 48 :=
  (C9_triangle_count sqZero sqZero dimsEx dimsEx cfgNoHole DEFAULT_PRINT_CONFIG).2
    (by norm_num [cfgNoHole]) (by norm_num [DEFAULT_PRINT_CONFIG])

/-- The xy-footprint area of a box extent. -/
def extentFootprintArea (e : Extent) : ℚ := (e.x1 - e.x0) * (e.y1 - e.y0)

/-- Membership of a point in an extent's closed xy-footprint. -/
def inFootprint (x y : ℚ) (e : Extent) : Prop :=
  e.x0 ≤ x ∧ x ≤ e.x1 ∧ e.y0 ≤ y ∧ y ≤ e.y1

/-- C6: with `mountingHoleDiameter = 0` the boom tail is one solid box whose
y-extent is exactly `mountingTailLength`; with a positive diameter it is
exactly four boxes whose footprint areas sum to
`boomWidth · mountingTailLength - mountingHoleDiameter²`, and (whenever the
hole fits inside the tail) the union of the four closed footprints is
precisely the solid tail footprint minus the open square hole of side
`mountingHoleDiameter`, centred in the tail span on the boom's centreline. -/
theorem C6_mounting_tail (dims : ConvertedDimensions) (cfg : PrintConfig) :
    (cfg.mountingHoleDiameter = 0 →
      mountingTailExtents dims cfg =
        [⟨-(cfg.boomWidth / 2), tailStart dims cfg, 0, cfg.boomWidth / 2,
          tailEnd dims cfg, boomHeight cfg⟩] ∧
      tailEnd dims cfg - tailStart dims cfg = cfg.mountingTailLength) ∧
    (0 < cfg.mountingHoleDiameter →
      (mountingTailExtents dims cfg).length = 4 ∧
      ((mountingTailExtents dims cfg).map extentFootprintArea).sum =
        cfg.boomWidth * cfg.mountingTailLength - cfg.mountingHoleDiameter ^ 2 ∧
      (cfg.mountingHoleDiameter ≤ cfg.boomWidth →
        cfg.mountingHoleDiameter ≤ cfg.mountingTailLength →
        ∀ x y : ℚ,
          (∃ ext ∈ mountingTailExtents dims cfg, inFootprint x y ext) ↔
            inFootprint x y
                ⟨-(cfg.boomWidth / 2), tailStart dims cfg, 0, cfg.boomWidth / 2,
                  tailEnd dims cfg, boomHeight cfg⟩ ∧
              ¬(-(cfg.mountingHoleDiameter / 2) < x ∧ x < cfg.mountingHoleDiameter / 2 ∧
                (tailStart dims cfg + tailEnd dims cfg) / 2 -
                    cfg.mountingHoleDiameter / 2 < y ∧
                  y < (tailStart dims cfg + tailEnd dims cfg) / 2 +
                    cfg.mountingHoleDiameter / 2))) := by
  have htail : tailEnd dims cfg = tailStart dims cfg + cfg.mountingTailLength := rfl
  constructor
  · intro h0
    refine ⟨?_, by rw [htail]; ring⟩
    unfold mountingTailExtents
    rw [if_neg (by rw [h0]; exact lt_irrefl 0)]
  · intro hpos
    unfold mountingTailExtents
    rw [if_pos hpos]
    refine ⟨rfl, ?_, ?_⟩
    · simp only [List.map_cons, List.map_nil, extentFootprintArea, List.sum_cons,
        List.sum_nil, htail]
      ring
    · intro hbw hL x y
      simp only [List.mem_cons, List.not_mem_nil, or_false, exists_eq_or_imp,
        exists_eq_left, inFootprint]
      constructor
      · rintro (⟨i1, i2, i3, i4⟩ | ⟨i1, i2, i3, i4⟩ | ⟨i1, i2, i3, i4⟩ | ⟨i1, i2, i3, i4⟩) <;>
          refine ⟨⟨by linarith, by linarith, by linarith, by linarith⟩, ?_⟩ <;>
          rintro ⟨j1, j2, j3, j4⟩ <;> linarith
      · rintro ⟨⟨r1, r2, r3, r4⟩, hhole⟩
        by_cases hy1 : y ≤ (tailStart dims cfg + tailEnd dims cfg) / 2 -
            cfg.mountingHoleDiameter / 2
        · exact Or.inl ⟨r1, r2, r3, hy1⟩
        · push_neg at hy1
          by_cases hy2 : (tailStart dims cfg + tailEnd dims cfg) / 2 +
              cfg.mountingHoleDiameter / 2 ≤ y
          · exact Or.inr (Or.inr (Or.inr ⟨r1, r2, hy2, r4⟩))
          · push_neg at hy2
            by_cases hx1 : x ≤ -(cfg.mountingHoleDiameter / 2)
            · exact Or.inr (Or.inl ⟨r1, by linarith, by linarith, by linarith⟩)
            · push_neg at hx1
              have hx2 : cfg.mountingHoleDiameter / 2 ≤ x := by
                by_contra hx2
                push_neg at hx2
                exact hhole ⟨by linarith, hx2, hy1, hy2⟩
              exact Or.inr (Or.inr (Or.inl ⟨by linarith, r2, by linarith, by linarith⟩))

/-- C6 witness: at the concrete inputs (hole side 4 mm, boom width 10 mm,
tail 35 mm) the hypotheses are discharged: the four-box variant's areas sum
to `10·35 - 4² = 334`, and the no-hole variant is the single solid box. -/
theorem C6_mounting_tail_witness :
    ((mountingTailExtents dimsEx DEFAULT_PRINT_CONFIG).length = 4 ∧
      ((mountingTailExtents dimsEx DEFAULT_PRINT_CONFIG).map extentFootprintArea).sum =
        DEFAULT_PRINT_CONFIG.boomWidth * DEFAULT_PRINT_CONFIG.mountingTailLength -
          DEFAULT_PRINT_CONFIG.mountingHoleDiameter ^ 2) ∧
      tailEnd dimsEx cfgNoHole - tailStart dimsEx cfgNoHole =
        cfgNoHole.mountingTailLength := by
  have h4 := (C6_mounting_tail dimsEx DEFAULT_PRINT_CONFIG).2
    (by norm_num [DEFAULT_PRINT_CONFIG])
  have h0 := (C6_mounting_tail dimsEx cfgNoHole).1 (by norm_num [cfgNoHole])
  exact ⟨⟨h4.1, h4.2.1⟩, h0.2⟩

/-- Remap one extent to a preview box (the `add` closure applied to an
`Extent`). -/
def previewAddExtent (e : Extent) (t : FeatureType) : PreviewBox :=
  previewAdd e.x0 e.y0 e.z0 e.x1 e.y1 e.z1 t

/-- The shared placement arithmetic of the preview and the STL composer,
modelled from the spec's description of the frame layout (§4.3/§4.5): every
preview box extent expressed through the composer's own boundary
quantities (`driverY`, `reflectorY`, tail ends, `halfOuter`, `totalHeight`,
boom span and mounting-tail span), in the preview's emission order. -/
def sharedLayoutExtents (dims : ConvertedDimensions) (cfg : PrintConfig) :
    List (Extent × FeatureType) :=
  let hA := dims.a / 2
  let hO := halfOuter cfg
  let w := cfg.wallThickness
  let fT := cfg.floorThickness
  let tH := totalHeight cfg
  let dY := driverY dims
  let rY := reflectorY dims
  let dTE := driverTailEnd dims
  let rTE := reflectorTailEnd dims
  let hBr := cfg.wallThickness * 2 / 2
  let hBoom := cfg.boomWidth / 2
  let bh := boomHeight cfg
  [ (⟨-hA, dY - hO, 0, hA, dY + hO, fT⟩, FeatureType.driver),
    (⟨-hA, dY - hO, fT, hA, dY - hO + w, tH⟩, FeatureType.driver),
    (⟨-hA, dY + hO - w, fT, hA, dY + hO, tH⟩, FeatureType.driver),
    (⟨-hA - hO, dY, 0, -hA + hO, dTE, fT⟩, FeatureType.driver),
    (⟨-hA - hO, dY, fT, -hA - hO + w, dTE, tH⟩, FeatureType.driver),
    (⟨-hA + hO - w, dY, fT, -hA + hO, dTE, tH⟩, FeatureType.driver),
    (⟨hA - hO, dY, 0, hA + hO, dTE, fT⟩, FeatureType.driver),
    (⟨hA - hO, dY, fT, hA - hO + w, dTE, tH⟩, FeatureType.driver),
    (⟨hA + hO - w, dY, fT, hA + hO, dTE, tH⟩, FeatureType.driver),
    (⟨-hA - hO, dTE, 0, -hA + hO, dTE + w, tH⟩, FeatureType.endcap),
    (⟨hA - hO, dTE, 0, hA + hO, dTE + w, tH⟩, FeatureType.endcap),
    (⟨-hA, rY - hO, 0, hA, rY + hO, fT⟩, FeatureType.reflector),
    (⟨-hA, rY - hO, fT, hA, rY - hO + w, tH⟩, FeatureType.reflector),
    (⟨-hA, rY + hO - w, fT, hA, rY + hO, tH⟩, FeatureType.reflector),
    (⟨-hA - hO, rTE, 0, -hA + hO, rY, fT⟩, FeatureType.reflector),
    (⟨-hA - hO, rTE, fT, -hA - hO + w, rY, tH⟩, FeatureType.reflector),
    (⟨-hA + hO - w, rTE, fT, -hA + hO, rY, tH⟩, FeatureType.reflector),
    (⟨hA - hO, rTE, 0, hA + hO, rY, fT⟩, FeatureType.reflector),
    (⟨hA - hO, rTE, fT, hA - hO + w, rY, tH⟩, FeatureType.reflector),
    (⟨hA + hO - w, rTE, fT, hA + hO, rY, tH⟩, FeatureType.reflector),
    (⟨-hA - hO, rTE - w, 0, -hA + hO, rTE, tH⟩, FeatureType.endcap),
    (⟨hA - hO, rTE - w, 0, hA + hO, rTE, tH⟩, FeatureType.endcap),
    (⟨-hA - hBr, dTE + w, 0, -hA + hBr, rTE - w, fT⟩, FeatureType.bridge),
    (⟨hA - hBr, dTE + w, 0, hA + hBr, rTE - w, fT⟩, FeatureType.bridge),
    (⟨-hA - hO, dY - hO, 0, -hA + hO, dY + hO, tH⟩, FeatureType.corner),
    (⟨-hA - hO, rY - hO, 0, -hA + hO, rY + hO, tH⟩, FeatureType.corner),
    (⟨hA - hO, dY - hO, 0, hA + hO, dY + hO, tH⟩, FeatureType.corner),
    (⟨hA - hO, rY - hO, 0, hA + hO, rY + hO, tH⟩, FeatureType.corner),
    (⟨-hBoom, boomStart dims cfg, 0, hBoom, boomBodyEnd dims cfg, bh⟩, FeatureType.boom),
    (⟨-hBoom, tailStart dims cfg, 0, hBoom, tailEnd dims cfg, bh⟩, FeatureType.boom) ]

/-- C7: the preview builder emits exactly the remap of the shared layout
extents — the same boundary coordinates (`driverY = -e/2`,
`reflectorY = e/2`, tail ends, bridge spans, boom and tail spans) the STL
composer lays its features out with — and the remap
`pos = [x, z, -y]` (at the extent's centre) has componentwise nonnegative
sizes, so it alters no relative proportions. -/
theorem C7_preview_consistency (dims : ConvertedDimensions) (cfg : PrintConfig) :
    buildFrameGeometry dims cfg =
        ((sharedLayoutExtents dims cfg).map fun p => previewAddExtent p.1 p.2) ∧
      (∀ box ∈ buildFrameGeometry dims cfg,
        0 ≤ box.size.1 ∧ 0 ≤ box.size.2.1 ∧ 0 ≤ box.size.2.2) ∧
      driverY dims = -dims.e / 2 ∧
      reflectorY dims = dims.e / 2 ∧
      driverTailEnd dims = driverY dims + dims.b ∧
      reflectorTailEnd dims = reflectorY dims - dims.d ∧
      boomStart dims cfg = driverY dims - halfOuter cfg ∧
      tailEnd dims cfg = reflectorY dims + halfOuter cfg + cfg.mountingTailLength := by
  have h1 : buildFrameGeometry dims cfg =
      (sharedLayoutExtents dims cfg).map fun p => previewAddExtent p.1 p.2 := rfl
  refine ⟨h1, ?_, rfl, rfl, rfl, rfl, rfl, rfl⟩
  intro box hbox
  rw [h1] at hbox
  obtain ⟨p, hp, rfl⟩ := List.mem_map.mp hbox
  exact ⟨abs_nonneg _, abs_nonneg _, abs_nonneg _⟩

/-- C7 witness: the consistency facts applied at the concrete inputs, with
the box-membership hypothesis discharged at the driver bar's floor box. -/
theorem C7_preview_consistency_witness :
    (previewAddExtent
          ⟨-(dimsEx.a / 2), driverY dimsEx - halfOuter DEFAULT_PRINT_CONFIG, 0,
            dimsEx.a / 2, driverY dimsEx + halfOuter DEFAULT_PRINT_CONFIG,
            DEFAULT_PRINT_CONFIG.floorThickness⟩ FeatureType.driver ∈
        buildFrameGeometry dimsEx DEFAULT_PRINT_CONFIG) ∧
      0 ≤ (previewAddExtent
          ⟨-(dimsEx.a / 2), driverY dimsEx - halfOuter DEFAULT_PRINT_CONFIG, 0,
            dimsEx.a / 2, driverY dimsEx + halfOuter DEFAULT_PRINT_CONFIG,
            DEFAULT_PRINT_CONFIG.floorThickness⟩ FeatureType.driver).size.1 := by
  have hmem : previewAddExtent
      ⟨-(dimsEx.a / 2), driverY dimsEx - halfOuter DEFAULT_PRINT_CONFIG, 0,
        dimsEx.a / 2, driverY dimsEx + halfOuter DEFAULT_PRINT_CONFIG,
        DEFAULT_PRINT_CONFIG.floorThickness⟩ FeatureType.driver ∈
      buildFrameGeometry dimsEx DEFAULT_PRINT_CONFIG :=
    List.mem_cons_self _ _
  exact ⟨hmem,
    ((C7_preview_consistency dimsEx DEFAULT_PRINT_CONFIG).2.1 _ hmem).1⟩

/-- C8: `calculateMoxon` returns no result exactly for non-positive
frequency or wire diameter, and every successful result satisfies
`e = b + c + d`, `drivenCutLength = a + 2b` and
`reflectorCutLength = a + 2d`, in the wavelength record and in all five
converted records. -/
theorem C8_calculator (mlog pow92 : ℚ → ℚ) (freq wd : ℚ) (unit : DiameterUnit)
    (ins : Bool) :
    (calculateMoxon mlog pow92 freq wd unit ins = none ↔ freq ≤ 0 ∨ wd ≤ 0) ∧
      ∀ r, calculateMoxon mlog pow92 freq wd unit ins = some r →
        (r.dimensions.e = r.dimensions.b + r.dimensions.c + r.dimensions.d ∧
            r.dimensions.drivenCutLength = r.dimensions.a + 2 * r.dimensions.b ∧
            r.dimensions.reflectorCutLength = r.dimensions.a + 2 * r.dimensions.d) ∧
          ∀ c ∈ [r.convertedWl, r.convertedFt, r.convertedIn, r.convertedM,
              r.convertedMm],
            c.e = c.b + c.c + c.d ∧
              c.drivenCutLength = c.a + 2 * c.b ∧
              c.reflectorCutLength = c.a + 2 * c.d := by
  by_cases h : freq ≤ 0 ∨ wd ≤ 0
  · constructor
    · simp [calculateMoxon, h]
    · intro r hr
      rw [calculateMoxon, if_pos h] at hr
      exact absurd hr (by simp)
  · constructor
    · simp [calculateMoxon, h]
    · intro r hr
      rw [calculateMoxon, if_neg h, Option.some.injEq] at hr
      subst hr
      refine ⟨⟨by ring, by ring, by ring⟩, ?_⟩
      intro c hc
      simp only [List.mem_cons, List.not_mem_nil, or_false] at hc
      rcases hc with rfl | rfl | rfl | rfl | rfl <;>
        refine ⟨?_, ?_, ?_⟩ <;>
        simp only [convertDims] <;>
        ring

/-- C8 witness: at frequency 1, diameter 1 (wavelength unit), the calculator
succeeds, and the extracted record satisfies `e = b + c + d`; at frequency 0
it returns no result. -/
theorem C8_calculator_witness :
    (calculateMoxon (fun _ => 0) (fun _ => 0) 1 1 DiameterUnit.wl false).isSome =
        true ∧
      (calculateMoxon (fun _ => 0) (fun _ => 0) 0 1 DiameterUnit.wl false = none) ∧
      ∀ r, calculateMoxon (fun _ => 0) (fun _ => 0) 1 1 DiameterUnit.wl false =
          some r → r.dimensions.e = r.dimensions.b + r.dimensions.c + r.dimensions.d := by
  have hiff := (C8_calculator (fun _ => 0) (fun _ => 0) 1 1 DiameterUnit.wl false).1
  have hzero := (C8_calculator (fun _ => 0) (fun _ => 0) 0 1 DiameterUnit.wl false).1
  refine ⟨?_, ?_, ?_⟩
  · rcases ho : calculateMoxon (fun _ => 0) (fun _ => 0) 1 1 DiameterUnit.wl false with
      _ | r
    · exact absurd (hiff.mp ho) (by norm_num)
    · rfl
  · exact hzero.mpr (Or.inl le_rfl)
  · intro r hr
    exact (((C8_calculator (fun _ => 0) (fun _ => 0) 1 1 DiameterUnit.wl false).2 r
      hr).1).1

/-- C10: the real-number semantics of `normalize` is total — the zero vector
is mapped to `[0, 0, 1]` instead of dividing by zero, every nonzero vector
has a nonzero length (so the division branch never divides by zero), and
`computeNormal` is well-defined even on degenerate triangles with
coincident vertices. -/
theorem C10_normalize_total :
    normalizeR (0, 0, 0) = (0, 0, 1) ∧
      (∀ v : Vec3R, v ≠ (0, 0, 0) → vlenR v ≠ 0) ∧
      (∀ v : Vec3R, v ≠ (0, 0, 0) →
        normalizeR v = (v.1 / vlenR v, v.2.1 / vlenR v, v.2.2 / vlenR v)) ∧
      ∀ a c : Vec3R, computeNormalR a a c = (0, 0, 1) := by
  have hlen : ∀ v : Vec3R, v ≠ (0, 0, 0) → vlenR v ≠ 0 := by
    rintro ⟨x, y, z⟩ hv h
    rw [vlenR, Real.sqrt_eq_zero'] at h
    have hx : x = 0 := by nlinarith [mul_self_nonneg x, mul_self_nonneg y, mul_self_nonneg z]
    have hy : y = 0 := by nlinarith [mul_self_nonneg x, mul_self_nonneg y, mul_self_nonneg z]
    have hz : z = 0 := by nlinarith [mul_self_nonneg x, mul_self_nonneg y, mul_self_nonneg z]
    exact hv (by rw [hx, hy, hz])
  refine ⟨?_, hlen, ?_, ?_⟩
  · simp [normalizeR, vlenR]
  · intro v hv
    rw [normalizeR]
    simp only [if_neg (hlen v hv)]
  · intro a c
    have hsub : vsubR a a = (0, 0, 0) := by
      simp [vsubR]
    rw [computeNormalR, hsub]
    have hcross : crossR (0, 0, 0) (vsubR c a) = (0, 0, 0) := by
      simp [crossR]
    rw [hcross]
    simp [normalizeR, vlenR]

/-- C10 witness: the nonzero-length fact applied at the concrete vector
`(1, 0, 0)`, whose hypothesis is discharged. -/
theorem C10_normalize_total_witness :
    ((1, 0, 0) : Vec3R) ≠ (0, 0, 0) ∧ vlenR ((1, 0, 0) : Vec3R) ≠ 0 := by
  have h : ((1, 0, 0) : Vec3R) ≠ (0, 0, 0) := by
    simp
  exact ⟨h, C10_normalize_total.2.1 (1, 0, 0) h⟩

end Moxon
